import Mathlib

/-!
# k8gb `controllers/dnsupdate.go`: target resolution and traffic steering

A shallow embedding of the functions of `controllers/dnsupdate.go` and the
properties of them that the specification states.

Conventions of the embedding

* Go `string` is `String`; the `strings` helpers work on the character list.
* Go slices are `List`; a `nil` slice and an empty slice are both `[]`
  (the source only ever looks at `len` and the elements).
* A Go `error` is `Option Error`, `none` being `nil`; a `(value, error)`
  result that is only used when the error is `nil` is `Except Error value`.
* A Go `map` that is only ranged over is the list of its entries in the
  order the `range` statement visits them; theorems hold for every list and
  so for every iteration order.
* Everything the reconciler reaches outside the file (the DNS exchange, the
  Kubernetes client, the clock) is an explicit argument.
-/

namespace K8gb

/-! ## Errors -/

/-- The error values that leave the functions of `dnsupdate.go`. -/
inductive Error where
  /-- An error value handed back by a collaborator (`dns.Exchange`,
  `time.Parse`, `r.Get`, `utils.Dig`, `r.getServiceHealthStatus`,
  `controllerutil.SetControllerReference`) and passed on unchanged. -/
  | collaborator (msg : String)
  /-- The value of
  `fmt.Errorf("ingress host %s does not match delegated zone %s", host, zone)`. -/
  | hostNotInZone (host zone : String)
  /-- The value of `errors.NewGone("Split brain TXT record expired the time
  threshold: (%s)")` for the given threshold. -/
  | goneExpired (threshold : Int)
  /-- The value of `errors.NewGone("Can't find split brain TXT record at
  EdgeDNS server(%s) and record %s ")`. -/
  | goneNoRecord (ns fqdn : String)
  deriving DecidableEq, Repr

/-! ## The `strings` helpers the file uses -/

namespace strings

/-- Characters variant of `strings.Contains`: `sub` occurs in `s` as a
contiguous block. -/
def containsChars : List Char → List Char → Bool
  | [], sub => sub.isEmpty
  | c :: s, sub => sub.isPrefixOf (c :: s) || containsChars s sub

/-- `strings.Contains(s, substr)`. -/
def Contains (s substr : String) : Bool :=
  containsChars s.data substr.data

/-- `strings.ReplaceAll(s, old, new)` for one-character `old` and `new`,
the only way the file calls it. -/
def ReplaceAll (s : String) (old new : Char) : String :=
  String.mk (s.data.map fun c => if c = old then new else c)

/-- Worker of `Split`: `cur` holds the pending field, reversed. -/
def splitAux (sep : Char) : List Char → List Char → List String
  | [], cur => [String.mk cur.reverse]
  | c :: cs, cur =>
    if c = sep then String.mk cur.reverse :: splitAux sep cs []
    else splitAux sep cs (c :: cur)

/-- `strings.Split(s, sep)` for a one-character separator. -/
def Split (s : String) (sep : Char) : List String :=
  splitAux sep s.data []

/-- `strings.Trim(s, cutset)` for a one-character cutset: every leading and
every trailing occurrence of the character is removed. -/
def Trim (s : String) (cut : Char) : String :=
  String.mk ((((s.data.dropWhile (· = cut)).reverse).dropWhile (· = cut)).reverse)

end strings

/-! ## Configuration and the DNS library types -/

/-- The fields of `depresolver.Config` the file reads.
`FakeDNSEnabled` is `Config.Override.FakeDNSEnabled`. -/
structure Config where
  ClusterGeoTag : String
  ExtClustersGeoTags : List String
  EdgeDNSServer : String
  EdgeDNSZone : String
  DNSZone : String
  FakeDNSEnabled : Bool
  deriving DecidableEq, Repr

/-- A resource record of a `dns.Msg` answer section, as far as the file
looks at it: what `String()` renders, and whether the dynamic type is
`*dns.TXT`. The library renders the four header columns and the record data
separated by tabs: `name\tttl\tclass\ttype\trdata`. -/
structure RR where
  text : String
  isTXT : Bool
  deriving DecidableEq, Repr

/-- The `dns.Msg` a `dns.Exchange` call returns, as far as the file looks at
it. -/
structure Msg where
  Answer : List RR
  deriving DecidableEq, Repr

/-- The question types the file asks. -/
inductive QType where
  | A
  | TXT
  deriving DecidableEq, Repr

/-- What `dns.Exchange(m, ns)` is to the file: the outcome of sending the
question `(name, qtype)` to the server address `ns`. -/
abbrev Exchange := String → QType → String → Except Error Msg

/-- `strings.Split(rr.String(), "\t")[4]`: the fifth tab-separated column of
the rendered record. The library always renders the four header columns, so
the index exists; the default is never reached for a rendered record. -/
def column4 (rr : RR) : String :=
  (strings.Split rr.text '\t').getD 4 ""

/-! ## `overrideWithFakeDNS` and `nsServerNameExt` -/

/-- `overrideWithFakeDNS` (lines 366-373). -/
def overrideWithFakeDNS (fakeDNSEnabled : Bool) (server : String) : String :=
  if fakeDNSEnabled then "127.0.0.1:7753" else server ++ ":53"

/-- `nsServerNameExt` (lines 210-223). -/
def nsServerNameExt (cfg : Config) : List String :=
  let dnsZoneIntoNS := strings.ReplaceAll cfg.DNSZone '.' '-'
  cfg.ExtClustersGeoTags.map fun clusterGeoTag =>
    "gslb-ns-" ++ dnsZoneIntoNS ++ "-" ++ clusterGeoTag ++ "." ++ cfg.EdgeDNSZone

/-! ## The reconciler and the Kubernetes types -/

/-- The `gslb.Spec.Strategy` fields the file reads; `Type_` is the field
`Type`. -/
structure Strategy where
  Type_ : String
  PrimaryGeoTag : String
  DNSTtlSeconds : Int
  deriving DecidableEq, Repr

/-- The fields of `k8gbv1beta1.Gslb` the file reads; `Strategy` is
`gslb.Spec.Strategy`. -/
structure Gslb where
  Name : String
  Namespace : String
  Strategy : Strategy
  deriving DecidableEq, Repr

/-- One entry of `Ingress.Status.LoadBalancer.Ingress`. An absent field is
the empty string, as in Go. -/
structure LoadBalancerIngress where
  IP : String
  Hostname : String
  deriving DecidableEq, Repr

/-- The owner reference `controllerutil.SetControllerReference` puts on the
object. -/
structure OwnerReference where
  Kind : String
  Name : String
  deriving DecidableEq, Repr

/-- The receiver `r *GslbReconciler`: its configuration, and what its
collaborators answer during the call.

* `exchange` is `dns.Exchange`.
* `getIngress namespace name` is `r.Get(ctx, nn, gslbIngress)` followed by
  reading `gslbIngress.Status.LoadBalancer.Ingress`.
* `dig server fqdn` is `utils.Dig`.
* `getServiceHealthStatus` is the method of that name, declared in another
  file; its map is given as the entries in `range` order.
* `setControllerReference gslb` is
  `controllerutil.SetControllerReference(gslb, dnsEndpoint, r.Scheme)`. -/
structure GslbReconciler where
  Config : Config
  exchange : Exchange
  getIngress : String → String → Except Error (List LoadBalancerIngress)
  dig : String → String → Except Error (List String)
  getServiceHealthStatus : Gslb → Except Error (List (String × String))
  setControllerReference : Gslb → Except Error OwnerReference

/-- Modelled from the spec: the constant `roundRobinStrategy` is declared in
another file of the package; the spec names the strategy `RoundRobin`. -/
def roundRobinStrategy : String := "RoundRobin"

/-- Modelled from the spec: the constant `failoverStrategy` is declared in
another file of the package; the spec names the strategy `Failover`. -/
def failoverStrategy : String := "Failover"

/-- `externaldns.Endpoint`, the fields the file sets. -/
structure Endpoint where
  DNSName : String
  Targets : List String
  RecordType : String
  RecordTTL : Int
  deriving DecidableEq, Repr

/-- The `metav1.ObjectMeta` fields the file sets. -/
structure ObjectMeta where
  Name : String
  Namespace : String
  Annotations : List (String × String)
  OwnerReferences : List OwnerReference
  deriving DecidableEq, Repr

/-- `externaldns.DNSEndpoint`; `Endpoints` is `Spec.Endpoints`. -/
structure DNSEndpoint where
  ObjectMeta : ObjectMeta
  Endpoints : List Endpoint
  deriving DecidableEq, Repr

/-! ## `getGslbIngressIPs` -/

/-- The `for _, ip := range gslbIngress.Status.LoadBalancer.Ingress` loop of
`getGslbIngressIPs` (lines 55-67), from the accumulated `gslbIngressIPs`. -/
def getGslbIngressIPsLoop (r : GslbReconciler) :
    List LoadBalancerIngress → List String → Except Error (List String)
  | [], gslbIngressIPs => Except.ok gslbIngressIPs
  | ip :: rest, gslbIngressIPs =>
    let gslbIngressIPs :=
      if ip.IP.length > 0 then gslbIngressIPs ++ [ip.IP] else gslbIngressIPs
    if ip.Hostname.length > 0 then
      match r.dig r.Config.EdgeDNSServer ip.Hostname with
      | Except.error err => Except.error err
      | Except.ok IPs => getGslbIngressIPsLoop r rest (gslbIngressIPs ++ IPs)
    else getGslbIngressIPsLoop r rest gslbIngressIPs

/-- `getGslbIngressIPs` (lines 37-70). -/
def getGslbIngressIPs (r : GslbReconciler) (gslb : Gslb) : Except Error (List String) :=
  match r.getIngress gslb.Namespace gslb.Name with
  | Except.error err => Except.error err
  | Except.ok ingress => getGslbIngressIPsLoop r ingress []

/-! ## `getExternalTargets` -/

/-- The result of a run of `getExternalTargets`: the two values it returns,
and the question names it passed to `g.SetQuestion`, each with the server
address it was sent to, in the order of the calls. -/
structure ExternalTargetsRun where
  targets : List String
  err : Option Error
  asked : List (String × String)
  deriving DecidableEq, Repr

/-- The `for _, A := range a.Answer` loop of `getExternalTargets`
(lines 98-103). -/
def clusterTargetsOf (a : Msg) : List String :=
  a.Answer.map column4

/-- The `for _, cluster := range extGslbClusters` loop of
`getExternalTargets` (lines 85-108), from the state `(host, targets)` at the
head of an iteration to the function's return (lines 96 and 110). `asked`
collects the questions sent so far. -/
def getExternalTargetsLoop (r : GslbReconciler) :
    List String → String → List String → List (String × String) → ExternalTargetsRun
  | [], _, targets, asked => ⟨targets, none, asked⟩
  | cluster :: rest, host, targets, asked =>
    let host := "localtargets-" ++ host ++ "."
    let ns := overrideWithFakeDNS r.Config.FakeDNSEnabled cluster
    let asked := asked ++ [(host, ns)]
    match r.exchange host QType.A ns with
    | Except.error _ => ⟨[], none, asked⟩
    | Except.ok a =>
      let clusterTargets := clusterTargetsOf a
      let targets :=
        if clusterTargets.length > 0 then targets ++ clusterTargets else targets
      getExternalTargetsLoop r rest host targets asked

/-- The run of `getExternalTargets` (lines 79-111) on `host`. -/
def getExternalTargetsRun (r : GslbReconciler) (host : String) : ExternalTargetsRun :=
  getExternalTargetsLoop r (nsServerNameExt r.Config) host [] []

/-- `getExternalTargets` (lines 79-111): the returned pair. -/
def getExternalTargets (r : GslbReconciler) (host : String) :
    List String × Option Error :=
  ((getExternalTargetsRun r host).targets, (getExternalTargetsRun r host).err)

/-! ## `gslbDNSEndpoint` -/

/-- The record of lines 137-142: the cluster-local record of `host`. -/
def localTargetsRecord (ttl : Int) (localTargets : List String) (host : String) : Endpoint :=
  { DNSName := "localtargets-" ++ host, Targets := localTargets, RecordType := "A",
    RecordTTL := ttl }

/-- The record of lines 181-186: the global record of `host`. -/
def globalRecord (ttl : Int) (host : String) (finalTargets : List String) : Endpoint :=
  { DNSName := host, Targets := finalTargets, RecordType := "A", RecordTTL := ttl }

/-- The body of the `for host, health := range serviceHealth` loop of
`gslbDNSEndpoint` (lines 128-188) for the entry `(host, health)`, from the
`gslbHosts` accumulated so far: the error the function returns from inside
the body, or `gslbHosts` at the end of the body. -/
def hostIteration (r : GslbReconciler) (gslb : Gslb) (ttl : Int) (localTargets : List String)
    (host health : String) (gslbHosts : List Endpoint) : Except Error (List Endpoint) :=
  let finalTargets : List String := []
  if !strings.Contains host r.Config.EdgeDNSZone then
    Except.error (Error.hostNotInZone host r.Config.EdgeDNSZone)
  else
    let finalTargets := if health = "Healthy" then finalTargets ++ localTargets else finalTargets
    let gslbHosts :=
      if health = "Healthy" then gslbHosts ++ [localTargetsRecord ttl localTargets host]
      else gslbHosts
    match getExternalTargets r host with
    | (_, some err) => Except.error err
    | (externalTargets, none) =>
      let finalTargets :=
        if externalTargets.length > 0 then
          if gslb.Strategy.Type_ = roundRobinStrategy then finalTargets ++ externalTargets
          else if gslb.Strategy.Type_ = failoverStrategy then
            if gslb.Strategy.PrimaryGeoTag = r.Config.ClusterGeoTag then
              if health ≠ "Healthy" then externalTargets else finalTargets
            else externalTargets
          else finalTargets
        else finalTargets
      let gslbHosts :=
        if finalTargets.length > 0 then gslbHosts ++ [globalRecord ttl host finalTargets]
        else gslbHosts
      Except.ok gslbHosts

/-- The `for host, health := range serviceHealth` loop of `gslbDNSEndpoint`
(lines 127-189), from the accumulated `gslbHosts`. -/
def gslbDNSEndpointLoop (r : GslbReconciler) (gslb : Gslb) (ttl : Int)
    (localTargets : List String) :
    List (String × String) → List Endpoint → Except Error (List Endpoint)
  | [], gslbHosts => Except.ok gslbHosts
  | (host, health) :: rest, gslbHosts =>
    match hostIteration r gslb ttl localTargets host health gslbHosts with
    | Except.error err => Except.error err
    | Except.ok gslbHosts => gslbDNSEndpointLoop r gslb ttl localTargets rest gslbHosts

/-- `gslbDNSEndpoint` (lines 113-208). -/
def gslbDNSEndpoint (r : GslbReconciler) (gslb : Gslb) : Except Error DNSEndpoint :=
  let ttl := gslb.Strategy.DNSTtlSeconds
  match r.getServiceHealthStatus gslb with
  | Except.error err => Except.error err
  | Except.ok serviceHealth =>
    match getGslbIngressIPs r gslb with
    | Except.error err => Except.error err
    | Except.ok localTargets =>
      match gslbDNSEndpointLoop r gslb ttl localTargets serviceHealth [] with
      | Except.error err => Except.error err
      | Except.ok gslbHosts =>
        match r.setControllerReference gslb with
        | Except.error err => Except.error err
        | Except.ok owner =>
          Except.ok
            { ObjectMeta :=
                { Name := gslb.Name, Namespace := gslb.Namespace,
                  Annotations := [("k8gb.absa.oss/dnstype", "local")],
                  OwnerReferences := [owner] },
              Endpoints := gslbHosts }

/-! ## The clock and `checkAliveFromTXT` -/

namespace time

/-- `time.Duration`: a count of nanoseconds held in an `int64`. -/
abbrev Duration := Int

/-- The smallest `time.Duration`, `-1 << 63`. -/
def minDuration : Int := -(2 ^ 63)

/-- The largest `time.Duration`, `1<<63 - 1`. -/
def maxDuration : Int := 2 ^ 63 - 1

/-- An instant of `time.Time` without monotonic reading (what `time.Parse`
and `time.Now().UTC()` give): the nanoseconds since the Unix epoch. The
range of `time.Time` is far wider than that of `Duration`, so the count is
an unbounded integer. -/
structure Time where
  unixNano : Int
  deriving DecidableEq, Repr

/-- `t.Sub(u)`: the `Duration` `t-u` in nanoseconds; when that is above the largest or below
the smallest `Duration`, the largest or the smallest `Duration` is returned
(the library's documented behaviour). -/
def Time.Sub (t u : Time) : Int :=
  if t.unixNano - u.unixNano > maxDuration then maxDuration
  else if t.unixNano - u.unixNano < minDuration then minDuration
  else t.unixNano - u.unixNano

end time

/-- `dns.Fqdn(s)`: `s` with a dot appended unless it ends in one (names
without backslash escapes). -/
def Fqdn (s : String) : String :=
  if s.data.getLast? = some '.' then s else s ++ "."

/-- `checkAliveFromTXT` (lines 225-264). `exchange` is `dns.Exchange`,
`parse` is `time.Parse("2006-01-02T15:04:05", ·)` and `now` is the value of
`time.Now().UTC()` at line 251. -/
def checkAliveFromTXT (exchange : Exchange) (parse : String → Except Error time.Time)
    (now : time.Time) (fqdn : String) (config : Config)
    (splitBrainThreshold : time.Duration) : Option Error :=
  let ns := overrideWithFakeDNS config.FakeDNSEnabled config.EdgeDNSServer
  match exchange (Fqdn fqdn) QType.TXT ns with
  | Except.error err => some err
  | Except.ok txt =>
    let timestamp : String :=
      match txt.Answer with
      | t :: _ => if t.isTXT then strings.Trim (column4 t) '"' else ""
      | [] => ""
    if timestamp.length > 0 then
      match parse timestamp with
      | Except.error err => some err
      | Except.ok timeFromTXT =>
        let diff := now.Sub timeFromTXT
        if diff > splitBrainThreshold then some (Error.goneExpired splitBrainThreshold)
        else none
    else some (Error.goneNoRecord ns fqdn)

/-- `getExternalClusterHeartbeatFQDNs` (lines 72-77). -/
def getExternalClusterHeartbeatFQDNs (gslb : Gslb) (config : Config) : List String :=
  config.ExtClustersGeoTags.map fun geoTag =>
    gslb.Name ++ "-heartbeat-" ++ geoTag ++ "." ++ config.EdgeDNSZone

/-! ## `filterOutDelegateTo` -/

/-- `ibclient.NameServer`. -/
structure NameServer where
  Address : String
  Name : String
  deriving DecidableEq, Repr

/-- The `for i := 0; i < len(delegateTo); i++` loop of `filterOutDelegateTo`
(lines 267-272), from the state `(delegateTo, i)` at the test of the loop
condition to the slice the function returns. On a match the slice becomes
`append(delegateTo[:i], delegateTo[i+1:]...)` and `i--` followed by the
loop's `i++` leaves the index where it was. -/
def filterOutDelegateToLoop (fqdn : String) (delegateTo : List NameServer) (i : Nat) :
    List NameServer :=
  if h : i < delegateTo.length then
    if delegateTo[i].Name = fqdn then
      filterOutDelegateToLoop fqdn (delegateTo.take i ++ delegateTo.drop (i + 1)) i
    else
      filterOutDelegateToLoop fqdn delegateTo (i + 1)
  else delegateTo
termination_by delegateTo.length - i
decreasing_by
  · simp only [List.length_append, List.length_take, List.length_drop]
    omega
  · omega

/-- `filterOutDelegateTo` (lines 266-274). -/
def filterOutDelegateTo (delegateTo : List NameServer) (fqdn : String) : List NameServer :=
  filterOutDelegateToLoop fqdn delegateTo 0

/-- The value of `timestamp` at line 243 of `checkAliveFromTXT`, from the
message the exchange returned (lines 234-241): the trimmed fifth column of
the first answer when that answer is a TXT record, the empty string
otherwise. -/
def timestampOf (txt : Msg) : String :=
  match txt.Answer with
  | t :: _ => if t.isTXT then strings.Trim (column4 t) '"' else ""
  | [] => ""

/-! ## Descriptions of one loop iteration

The two definitions below say in closed form what `hostIteration` computes;
`hostIteration_eq` proves that they do. -/

/-- The value of `finalTargets` at line 178 of `gslbDNSEndpoint`, from the
host's health, the local targets and the external targets that
`getExternalTargets` returned (lines 128, 134-135 and 151-176). -/
def finalTargetsOf (cfg : Config) (gslb : Gslb) (localTargets : List String)
    (health : String) (externalTargets : List String) : List String :=
  let finalTargets : List String := if health = "Healthy" then localTargets else []
  if externalTargets.length > 0 then
    if gslb.Strategy.Type_ = roundRobinStrategy then finalTargets ++ externalTargets
    else if gslb.Strategy.Type_ = failoverStrategy then
      if gslb.Strategy.PrimaryGeoTag = cfg.ClusterGeoTag then
        if health ≠ "Healthy" then externalTargets else finalTargets
      else externalTargets
    else finalTargets
  else finalTargets

/-- The records that the loop iteration of `gslbDNSEndpoint` for the entry
`(host, health)` appends to `gslbHosts` (line 143, then line 187). -/
def iterationRecords (r : GslbReconciler) (gslb : Gslb) (localTargets : List String)
    (entry : String × String) : List Endpoint :=
  let ttl := gslb.Strategy.DNSTtlSeconds
  let finalTargets :=
    finalTargetsOf r.Config gslb localTargets entry.2 (getExternalTargets r entry.1).1
  (if entry.2 = "Healthy" then [localTargetsRecord ttl localTargets entry.1] else []) ++
  (if finalTargets.length > 0 then [globalRecord ttl entry.1 finalTargets] else [])

/-! ## The notions of the specification that the code does not compute -/

/-- The specification's "`host` ends in the zone as a DNS suffix": the
characters of `zone` are the last characters of `host`. -/
def endsInZone (host zone : String) : Bool :=
  zone.data.isSuffixOf host.data

/-- The specification's Peer Target Discovery for the name `fqdn`: every
peer name server, in configuration order, is asked `fqdn`; a peer whose
query fails contributes nothing, every other peer contributes its
answers. -/
def specExternalTargets (r : GslbReconciler) (fqdn : String) : List String :=
  (nsServerNameExt r.Config).flatMap fun cluster =>
    match r.exchange fqdn QType.A (overrideWithFakeDNS r.Config.FakeDNSEnabled cluster) with
    | Except.error _ => []
    | Except.ok a => clusterTargetsOf a

/-- The addresses `utils.Dig` returns for `hostname` at the edge DNS server,
none when the resolution fails. -/
def resolvedIPs (r : GslbReconciler) (hostname : String) : List String :=
  match r.dig r.Config.EdgeDNSServer hostname with
  | Except.ok IPs => IPs
  | Except.error _ => []

/-- The specification's Local Target Discovery for one ingress entry: the
IP alone if an IP is present; otherwise, if a hostname is present, the
addresses its resolution returns. -/
def specEntryIPs (r : GslbReconciler) (entry : LoadBalancerIngress) : List String :=
  if entry.IP.length > 0 then [entry.IP]
  else if entry.Hostname.length > 0 then resolvedIPs r entry.Hostname
  else []

/-! ## Concrete clusters used as witnesses and counterexamples -/

/-- Cluster `eu` with the peers `us` and `za`, in that order. -/
def euConfig : Config :=
  { ClusterGeoTag := "eu", ExtClustersGeoTags := ["us", "za"], EdgeDNSServer := "8.8.8.8",
    EdgeDNSZone := "example.com", DNSZone := "cloud.example.com", FakeDNSEnabled := false }

/-- The address of the name server of peer `us` as `getExternalTargets`
computes it for `euConfig`. -/
def usServer : String := "gslb-ns-cloud-example-com-us.example.com:53"

/-- The address of the name server of peer `za` as `getExternalTargets`
computes it for `euConfig`. -/
def zaServer : String := "gslb-ns-cloud-example-com-za.example.com:53"

/-- The A record `name 30 IN A ip` as the DNS library renders it. -/
def aRecord (name ip : String) : RR :=
  { text := name ++ "\t30\tIN\tA\t" ++ ip, isTXT := false }

/-- A network in which the servers listed in `table` answer every A question
with the addresses listed for them, whatever the name asked, and every
other exchange fails. -/
def tableExchange (table : List (String × List String)) : Exchange :=
  fun name _ ns =>
    match table.lookup ns with
    | some ips => Except.ok ⟨ips.map (aRecord name)⟩
    | none => Except.error (Error.collaborator "i/o timeout")

/-- A network in which every server answers an A question with one record
whose address column repeats the name that was asked. -/
def echoExchange : Exchange :=
  fun name _ _ => Except.ok ⟨[aRecord name name]⟩

/-- A reconciler of cluster `cfg` on the network `exchange`, whose ingress
has the single address `10.1.0.1` and whose health map is `serviceHealth`. -/
def reconcilerOn (cfg : Config) (exchange : Exchange)
    (serviceHealth : List (String × String)) : GslbReconciler :=
  { Config := cfg
    exchange := exchange
    getIngress := fun _ _ => Except.ok [{ IP := "10.1.0.1", Hostname := "" }]
    dig := fun _ _ => Except.ok []
    getServiceHealthStatus := fun _ => Except.ok serviceHealth
    setControllerReference := fun gslb => Except.ok { Kind := "Gslb", Name := gslb.Name } }

/-- A `Gslb` named `app` with the given strategy, primary `eu`, TTL 30. -/
def appGslb (strategy : String) : Gslb :=
  { Name := "app", Namespace := "prod",
    Strategy := { Type_ := strategy, PrimaryGeoTag := "eu", DNSTtlSeconds := 30 } }

/-- Cluster `us`, a secondary of the primary `eu`, with the single peer
`eu`. -/
def usConfig : Config :=
  { ClusterGeoTag := "us", ExtClustersGeoTags := ["eu"], EdgeDNSServer := "8.8.8.8",
    EdgeDNSZone := "example.com", DNSZone := "cloud.example.com", FakeDNSEnabled := false }

/-- The address of the name server of peer `eu` as `getExternalTargets`
computes it for `usConfig`. -/
def euServer : String := "gslb-ns-cloud-example-com-eu.example.com:53"

/-- The `DNSEndpoint` that `gslbDNSEndpoint` builds for `appGslb` around the
records `endpoints`. -/
def appEndpoint (endpoints : List Endpoint) : DNSEndpoint :=
  { ObjectMeta :=
      { Name := "app", Namespace := "prod",
        Annotations := [("k8gb.absa.oss/dnstype", "local")],
        OwnerReferences := [{ Kind := "Gslb", Name := "app" }] },
    Endpoints := endpoints }

/-- The A record set `name 30 IN A targets` of the output. -/
def aEndpoint (name : String) (targets : List String) : Endpoint :=
  { DNSName := name, Targets := targets, RecordType := "A", RecordTTL := 30 }

/-- The edge DNS server answering every TXT question with one TXT record
whose text is `payload`, rendered by the DNS library with the quotes. -/
def heartbeatExchange (payload : String) : Exchange :=
  fun name _ _ =>
    Except.ok ⟨[{ text := name ++ "\t30\tIN\tTXT\t\"" ++ payload ++ "\"", isTXT := true }]⟩

/-- A `time.Parse` that knows the timestamps of `table`, each with its
instant in nanoseconds since the Unix epoch, and rejects every other
text. -/
def parseTable (table : List (String × Int)) : String → Except Error time.Time :=
  fun text =>
    match table.lookup text with
    | some ns => Except.ok ⟨ns⟩
    | none => Except.error (Error.collaborator "parsing time: cannot parse")

/-- The instant 2026-11-01T12:00:00Z. -/
def noon : time.Time := ⟨1793534400000000000⟩

/-- The timestamps used below: the first instant of year 1, and five
minutes before `noon`. -/
def knownTimestamps : List (String × Int) :=
  [("0001-01-01T00:00:00", -62135596800000000000),
   ("2026-11-01T11:55:00", 1793534100000000000)]

/-- A `utils.Dig` that resolves the names of `table` to the addresses listed
for them and fails for every other name. -/
def tableDig (table : List (String × List String)) :
    String → String → Except Error (List String) :=
  fun _ fqdn =>
    match table.lookup fqdn with
    | some ips => Except.ok ips
    | none => Except.error (Error.collaborator "no such host")

/-- The reconciler `reconcilerOn cfg exchange serviceHealth` with the ingress
entries `ingress` and the resolver `dig`. -/
def reconcilerWithIngress (cfg : Config) (exchange : Exchange)
    (serviceHealth : List (String × String)) (ingress : List LoadBalancerIngress)
    (dig : String → String → Except Error (List String)) : GslbReconciler :=
  { reconcilerOn cfg exchange serviceHealth with
    getIngress := fun _ _ => Except.ok ingress
    dig := dig }

/-- The reconciler `reconcilerOn cfg exchange serviceHealth` whose scheme
does not know the `Gslb` kind, so that `SetControllerReference` fails. -/
def reconcilerWithoutScheme (cfg : Config) (exchange : Exchange)
    (serviceHealth : List (String × String)) : GslbReconciler :=
  { reconcilerOn cfg exchange serviceHealth with
    setControllerReference := fun _ =>
      Except.error (Error.collaborator "no kind is registered for the type v1beta1.Gslb") }

/-- Cluster `eu`, the primary, with the single peer `us`. -/
def euOnePeerConfig : Config :=
  { ClusterGeoTag := "eu", ExtClustersGeoTags := ["us"], EdgeDNSServer := "8.8.8.8",
    EdgeDNSZone := "example.com", DNSZone := "cloud.example.com", FakeDNSEnabled := false }

/-- The network `tableExchange table` as the DNS library lets it be reached:
a question name with an empty label (two dots in a row) cannot be packed
into a message, and the exchange fails before anything is sent. -/
def packedExchange (table : List (String × List String)) : Exchange :=
  fun name qtype ns =>
    if strings.Contains name ".." then Except.error (Error.collaborator "dns: bad rdata")
    else tableExchange table name qtype ns

/-! ## Lemmas about the embedding -/

/-- `getExternalTargets` never returns an error: both `return` statements
give `nil`. -/
theorem getExternalTargetsLoop_err (r : GslbReconciler) (clusters : List String) :
    ∀ (host : String) (targets : List String) (asked : List (String × String)),
      (getExternalTargetsLoop r clusters host targets asked).err = none := by
  induction clusters with
  | nil => intro host targets asked; rfl
  | cons cluster rest ih =>
    intro host targets asked
    simp only [getExternalTargetsLoop]
    split
    · rfl
    · exact ih _ _ _

theorem getExternalTargets_snd (r : GslbReconciler) (host : String) :
    (getExternalTargets r host).2 = none :=
  getExternalTargetsLoop_err r _ _ _ _

theorem hostIteration_eq (r : GslbReconciler) (gslb : Gslb) (localTargets : List String)
    (host health : String) (gslbHosts : List Endpoint)
    (hz : strings.Contains host r.Config.EdgeDNSZone = true) :
    hostIteration r gslb gslb.Strategy.DNSTtlSeconds localTargets host health gslbHosts =
      Except.ok (gslbHosts ++ iterationRecords r gslb localTargets (host, health)) := by
  have hs := getExternalTargets_snd r host
  unfold hostIteration iterationRecords finalTargetsOf
  rcases hg : getExternalTargets r host with ⟨ext, err⟩
  rw [hg] at hs
  simp only at hs
  subst hs
  simp only [hz, Bool.not_true, Bool.false_eq_true, if_false, List.nil_append]
  by_cases hh : health = "Healthy"
  · simp only [hh, if_true, ne_eq, not_true_eq_false, if_false]
    split_ifs <;> simp
  · simp only [hh, if_false, ne_eq, not_false_eq_true, if_true, List.append_nil, List.nil_append]
    split_ifs <;> simp

theorem hostIteration_not_in_zone (r : GslbReconciler) (gslb : Gslb) (ttl : Int)
    (localTargets : List String) (host health : String) (gslbHosts : List Endpoint)
    (hz : strings.Contains host r.Config.EdgeDNSZone = false) :
    hostIteration r gslb ttl localTargets host health gslbHosts =
      Except.error (Error.hostNotInZone host r.Config.EdgeDNSZone) := by
  simp [hostIteration, hz]

theorem gslbDNSEndpointLoop_ok (r : GslbReconciler) (gslb : Gslb) (localTargets : List String)
    (serviceHealth : List (String × String)) :
    ∀ gslbHosts : List Endpoint,
      (∀ p ∈ serviceHealth, strings.Contains p.1 r.Config.EdgeDNSZone = true) →
      gslbDNSEndpointLoop r gslb gslb.Strategy.DNSTtlSeconds localTargets serviceHealth gslbHosts =
        Except.ok (gslbHosts ++ serviceHealth.flatMap (iterationRecords r gslb localTargets)) := by
  induction serviceHealth with
  | nil => intro gslbHosts _; simp [gslbDNSEndpointLoop]
  | cons p rest ih =>
    intro gslbHosts hz
    obtain ⟨host, health⟩ := p
    have h1 : strings.Contains host r.Config.EdgeDNSZone = true := hz (host, health) (by simp)
    simp only [gslbDNSEndpointLoop, hostIteration_eq r gslb localTargets host health gslbHosts h1]
    rw [ih _ (fun q hq => hz q (List.mem_cons_of_mem _ hq))]
    simp [List.flatMap_cons, List.append_assoc]

theorem gslbDNSEndpointLoop_error (r : GslbReconciler) (gslb : Gslb) (localTargets : List String)
    (serviceHealth : List (String × String)) :
    ∀ gslbHosts : List Endpoint,
      (∃ p ∈ serviceHealth, strings.Contains p.1 r.Config.EdgeDNSZone = false) →
      ∃ p ∈ serviceHealth, strings.Contains p.1 r.Config.EdgeDNSZone = false ∧
        gslbDNSEndpointLoop r gslb gslb.Strategy.DNSTtlSeconds localTargets serviceHealth
            gslbHosts =
          Except.error (Error.hostNotInZone p.1 r.Config.EdgeDNSZone) := by
  induction serviceHealth with
  | nil => intro gslbHosts h; obtain ⟨p, hp, _⟩ := h; simp at hp
  | cons p rest ih =>
    intro gslbHosts h
    obtain ⟨host, health⟩ := p
    cases h1 : strings.Contains host r.Config.EdgeDNSZone with
    | false =>
      refine ⟨(host, health), by simp, h1, ?_⟩
      simp only [gslbDNSEndpointLoop, hostIteration_not_in_zone r gslb _ localTargets host health
        gslbHosts h1]
    | true =>
      have hrest : ∃ q ∈ rest, strings.Contains q.1 r.Config.EdgeDNSZone = false := by
        obtain ⟨q, hq, hqz⟩ := h
        rcases List.mem_cons.mp hq with rfl | hq
        · simp only at hqz; rw [h1] at hqz; exact absurd hqz (by simp)
        · exact ⟨q, hq, hqz⟩
      obtain ⟨q, hq, hqz, hrun⟩ := ih
        (gslbHosts ++ iterationRecords r gslb localTargets (host, health)) hrest
      refine ⟨q, List.mem_cons_of_mem _ hq, hqz, ?_⟩
      simp only [gslbDNSEndpointLoop, hostIteration_eq r gslb localTargets host health gslbHosts h1]
      exact hrun

/-- Every successful run of `gslbDNSEndpoint`: all collaborators succeeded,
every host passed the zone check, and the endpoints are the records of the
iterations in `range` order. -/
theorem gslbDNSEndpoint_ok_inv (r : GslbReconciler) (gslb : Gslb) (out : DNSEndpoint)
    (h : gslbDNSEndpoint r gslb = Except.ok out) :
    ∃ serviceHealth localTargets,
      r.getServiceHealthStatus gslb = Except.ok serviceHealth ∧
      getGslbIngressIPs r gslb = Except.ok localTargets ∧
      (∀ p ∈ serviceHealth, strings.Contains p.1 r.Config.EdgeDNSZone = true) ∧
      out.Endpoints = serviceHealth.flatMap (iterationRecords r gslb localTargets) := by
  unfold gslbDNSEndpoint at h
  cases hs : r.getServiceHealthStatus gslb with
  | error e => rw [hs] at h; simp at h
  | ok serviceHealth =>
    cases hl : getGslbIngressIPs r gslb with
    | error e => rw [hs, hl] at h; simp at h
    | ok localTargets =>
      refine ⟨serviceHealth, localTargets, rfl, rfl, ?_⟩
      rw [hs, hl] at h
      simp only at h
      by_cases hz : ∀ p ∈ serviceHealth, strings.Contains p.1 r.Config.EdgeDNSZone = true
      · refine ⟨hz, ?_⟩
        rw [gslbDNSEndpointLoop_ok r gslb localTargets serviceHealth [] hz] at h
        simp only [List.nil_append] at h
        cases ho : r.setControllerReference gslb with
        | error e => rw [ho] at h; simp at h
        | ok owner =>
          rw [ho] at h
          simp only [Except.ok.injEq] at h
          rw [← h]
      · exfalso
        have hz2 : ∃ p ∈ serviceHealth, strings.Contains p.1 r.Config.EdgeDNSZone = false := by
          by_contra hcon
          apply hz
          intro p hp
          cases hc : strings.Contains p.1 r.Config.EdgeDNSZone with
          | true => rfl
          | false => exact absurd ⟨p, hp, hc⟩ hcon
        obtain ⟨q, _, _, hrun⟩ := gslbDNSEndpointLoop_error r gslb localTargets serviceHealth [] hz2
        rw [hrun] at h
        simp at h

/-- When every collaborator succeeds and every host passes the zone check,
`gslbDNSEndpoint` returns the record set of the iterations. -/
theorem gslbDNSEndpoint_ok (r : GslbReconciler) (gslb : Gslb)
    (serviceHealth : List (String × String)) (localTargets : List String)
    (owner : OwnerReference)
    (hs : r.getServiceHealthStatus gslb = Except.ok serviceHealth)
    (hl : getGslbIngressIPs r gslb = Except.ok localTargets)
    (hz : ∀ p ∈ serviceHealth, strings.Contains p.1 r.Config.EdgeDNSZone = true)
    (ho : r.setControllerReference gslb = Except.ok owner) :
    gslbDNSEndpoint r gslb = Except.ok
      { ObjectMeta :=
          { Name := gslb.Name, Namespace := gslb.Namespace,
            Annotations := [("k8gb.absa.oss/dnstype", "local")],
            OwnerReferences := [owner] },
        Endpoints := serviceHealth.flatMap (iterationRecords r gslb localTargets) } := by
  unfold gslbDNSEndpoint
  rw [hs, hl]
  simp only
  rw [gslbDNSEndpointLoop_ok r gslb localTargets serviceHealth [] hz, ho]
  simp

/-! ## Peer Target Discovery -/

/-- C1 (the code departs from the claim). Peers `us` and `za`, host
`app.cloud.example.com`. When `us` answers `10.0.0.1` and the query to `za`
fails, discovery as the specification describes it yields `["10.0.0.1"]`,
but `getExternalTargets` returns no target at all: the `return nil, nil` of
line 96 leaves the loop and drops what earlier peers answered. When `us`
fails and `za` would answer `10.0.0.2`, `za` is never asked and the result
is empty as well. -/
theorem getExternalTargets_peer_failure_drops_all_targets :
    (specExternalTargets (reconcilerOn euConfig (tableExchange [(usServer, ["10.0.0.1"])]) [])
        "localtargets-app.cloud.example.com." = ["10.0.0.1"] ∧
      getExternalTargets (reconcilerOn euConfig (tableExchange [(usServer, ["10.0.0.1"])]) [])
        "app.cloud.example.com" = ([], none)) ∧
    (specExternalTargets (reconcilerOn euConfig (tableExchange [(zaServer, ["10.0.0.2"])]) [])
        "localtargets-app.cloud.example.com." = ["10.0.0.2"] ∧
      getExternalTargets (reconcilerOn euConfig (tableExchange [(zaServer, ["10.0.0.2"])]) [])
        "app.cloud.example.com" = ([], none) ∧
      (getExternalTargetsRun
          (reconcilerOn euConfig (tableExchange [(zaServer, ["10.0.0.2"])]) [])
          "app.cloud.example.com").asked = [("localtargets-app.cloud.example.com.", usServer)]) := by
  decide

/-- C2 (the code departs from the claim). Peers `us` and `za`, both
answering, host `app.cloud.example.com`. The first peer is asked
`localtargets-app.cloud.example.com.`, the second peer is asked
`localtargets-localtargets-app.cloud.example.com..`: line 88 assigns the
formatted name to `host` itself, so every later iteration formats the name
of the iteration before. On a network that answers with the name asked, the
returned targets are these two names. -/
theorem getExternalTargets_second_peer_asked_other_name :
    (getExternalTargetsRun (reconcilerOn euConfig echoExchange []) "app.cloud.example.com").asked =
      [("localtargets-app.cloud.example.com.", usServer),
       ("localtargets-localtargets-app.cloud.example.com..", zaServer)] ∧
    getExternalTargets (reconcilerOn euConfig echoExchange []) "app.cloud.example.com" =
      (["localtargets-app.cloud.example.com.",
        "localtargets-localtargets-app.cloud.example.com.."], none) := by
  decide

/-! ## The zone check of `gslbDNSEndpoint` -/

/-- C3 (counterexample). The host `app.example.com.evil.org` does not end in
the zone `example.com`, yet `gslbDNSEndpoint` returns a record set that holds
records for it: the check of line 130 is `strings.Contains`. -/
theorem gslbDNSEndpoint_accepts_host_not_ending_in_zone :
    endsInZone "app.example.com.evil.org" euConfig.EdgeDNSZone = false ∧
    gslbDNSEndpoint
        (reconcilerOn euConfig (tableExchange []) [("app.example.com.evil.org", "Healthy")])
        (appGslb roundRobinStrategy) =
      Except.ok
        { ObjectMeta :=
            { Name := "app", Namespace := "prod",
              Annotations := [("k8gb.absa.oss/dnstype", "local")],
              OwnerReferences := [{ Kind := "Gslb", Name := "app" }] },
          Endpoints :=
            [{ DNSName := "localtargets-app.example.com.evil.org", Targets := ["10.1.0.1"],
               RecordType := "A", RecordTTL := 30 },
             { DNSName := "app.example.com.evil.org", Targets := ["10.1.0.1"],
               RecordType := "A", RecordTTL := 30 }] } := by
  constructor
  · decide
  · rfl

/-- C3 (amended). For every health map with at least one hostname in which
the zone `Config.EdgeDNSZone` does not occur as a substring,
`gslbDNSEndpoint` returns an error, hence no record set; when the health map
and the local targets were obtained, the error is the zone error of such a
hostname. -/
theorem gslbDNSEndpoint_host_without_zone_is_error (r : GslbReconciler) (gslb : Gslb)
    (serviceHealth : List (String × String))
    (hs : r.getServiceHealthStatus gslb = Except.ok serviceHealth)
    (hbad : ∃ p ∈ serviceHealth, strings.Contains p.1 r.Config.EdgeDNSZone = false) :
    ∃ err, gslbDNSEndpoint r gslb = Except.error err ∧
      ((∃ localTargets, getGslbIngressIPs r gslb = Except.ok localTargets) →
        ∃ p ∈ serviceHealth, strings.Contains p.1 r.Config.EdgeDNSZone = false ∧
          err = Error.hostNotInZone p.1 r.Config.EdgeDNSZone) := by
  unfold gslbDNSEndpoint
  rw [hs]
  cases hl : getGslbIngressIPs r gslb with
  | error e => exact ⟨e, rfl, fun h => by obtain ⟨lt, hlt⟩ := h; simp at hlt⟩
  | ok localTargets =>
    obtain ⟨p, hp, hpz, hrun⟩ := gslbDNSEndpointLoop_error r gslb localTargets serviceHealth [] hbad
    refine ⟨Error.hostNotInZone p.1 r.Config.EdgeDNSZone, ?_, fun _ => ⟨p, hp, hpz, rfl⟩⟩
    simp only [hrun]

/-- C3 (witness). Cluster `eu`, zone `example.com`: the health map holds
`app.cloud.example.org`, in which the zone does not occur. -/
theorem gslbDNSEndpoint_host_without_zone_is_error_witness :
    ∃ err,
      gslbDNSEndpoint
          (reconcilerOn euConfig (tableExchange [])
            [("app.cloud.example.com", "Healthy"), ("app.cloud.example.org", "Healthy")])
          (appGslb roundRobinStrategy) = Except.error err ∧
      ((∃ localTargets,
          getGslbIngressIPs
            (reconcilerOn euConfig (tableExchange [])
              [("app.cloud.example.com", "Healthy"), ("app.cloud.example.org", "Healthy")])
            (appGslb roundRobinStrategy) = Except.ok localTargets) →
        ∃ p ∈ [("app.cloud.example.com", "Healthy"), ("app.cloud.example.org", "Healthy")],
          strings.Contains p.1 euConfig.EdgeDNSZone = false ∧
            err = Error.hostNotInZone p.1 euConfig.EdgeDNSZone) :=
  gslbDNSEndpoint_host_without_zone_is_error
    (reconcilerOn euConfig (tableExchange [])
      [("app.cloud.example.com", "Healthy"), ("app.cloud.example.org", "Healthy")])
    (appGslb roundRobinStrategy)
    [("app.cloud.example.com", "Healthy"), ("app.cloud.example.org", "Healthy")]
    rfl
    ⟨("app.cloud.example.org", "Healthy"), by simp, by decide⟩

/-! ## The cluster-local record -/

/-- C4. In every successful run of `gslbDNSEndpoint`, whatever the strategy
and whatever the peers answered, every host of the health map whose health
is `Healthy` has in the output the record named `localtargets-<host>` of
type `A` with the TTL of the spec and exactly the local target list as its
targets. -/
theorem gslbDNSEndpoint_local_record_present (r : GslbReconciler) (gslb : Gslb)
    (out : DNSEndpoint) (serviceHealth : List (String × String)) (localTargets : List String)
    (host : String)
    (hrun : gslbDNSEndpoint r gslb = Except.ok out)
    (hs : r.getServiceHealthStatus gslb = Except.ok serviceHealth)
    (hl : getGslbIngressIPs r gslb = Except.ok localTargets)
    (hhost : (host, "Healthy") ∈ serviceHealth) :
    ({ DNSName := "localtargets-" ++ host, Targets := localTargets, RecordType := "A",
       RecordTTL := gslb.Strategy.DNSTtlSeconds } : Endpoint) ∈ out.Endpoints := by
  obtain ⟨sh, lt, hs2, hl2, _, hout⟩ := gslbDNSEndpoint_ok_inv r gslb out hrun
  rw [hs] at hs2
  rw [hl] at hl2
  cases hs2
  cases hl2
  rw [hout, List.mem_flatMap]
  refine ⟨(host, "Healthy"), hhost, ?_⟩
  simp [iterationRecords, localTargetsRecord]

/-- C4 (witness). Cluster `eu` under Failover, peer `us` answering: the
cluster-local record of the Healthy host carries the local target. -/
theorem gslbDNSEndpoint_local_record_present_witness :
    ({ DNSName := "localtargets-" ++ "app.cloud.example.com", Targets := ["10.1.0.1"],
       RecordType := "A", RecordTTL := (appGslb failoverStrategy).Strategy.DNSTtlSeconds }
        : Endpoint) ∈
      [({ DNSName := "localtargets-app.cloud.example.com", Targets := ["10.1.0.1"],
          RecordType := "A", RecordTTL := 30 } : Endpoint),
       { DNSName := "app.cloud.example.com", Targets := ["10.1.0.1"],
         RecordType := "A", RecordTTL := 30 }] :=
  gslbDNSEndpoint_local_record_present
    (reconcilerOn euConfig (tableExchange [(usServer, ["10.0.0.1"]), (zaServer, [])])
      [("app.cloud.example.com", "Healthy")])
    (appGslb failoverStrategy)
    { ObjectMeta :=
        { Name := "app", Namespace := "prod",
          Annotations := [("k8gb.absa.oss/dnstype", "local")],
          OwnerReferences := [{ Kind := "Gslb", Name := "app" }] },
      Endpoints :=
        [{ DNSName := "localtargets-app.cloud.example.com", Targets := ["10.1.0.1"],
           RecordType := "A", RecordTTL := 30 },
         { DNSName := "app.cloud.example.com", Targets := ["10.1.0.1"],
           RecordType := "A", RecordTTL := 30 }] }
    [("app.cloud.example.com", "Healthy")] ["10.1.0.1"] "app.cloud.example.com"
    rfl rfl rfl (by simp)

/-! ## The strategy decision of `gslbDNSEndpoint` -/

/-- C5. Under the RoundRobin strategy the iteration for `(host, health)`
appends, after the cluster-local record of a Healthy host, the global record
named `host` whose targets are the local targets (when Healthy, otherwise
nothing) followed by the external targets `getExternalTargets` returned,
duplicates kept, and appends that record exactly when this list is not
empty. Every successful run returns these records, host after host. -/
theorem gslbDNSEndpoint_roundRobin_targets (r : GslbReconciler) (gslb : Gslb)
    (localTargets : List String)
    (hRR : gslb.Strategy.Type_ = roundRobinStrategy) :
    (∀ (host health : String) (gslbHosts : List Endpoint),
      strings.Contains host r.Config.EdgeDNSZone = true →
      hostIteration r gslb gslb.Strategy.DNSTtlSeconds localTargets host health gslbHosts =
        Except.ok (gslbHosts ++
          (if health = "Healthy" then
            [{ DNSName := "localtargets-" ++ host, Targets := localTargets, RecordType := "A",
               RecordTTL := gslb.Strategy.DNSTtlSeconds }]
           else []) ++
          (if (if health = "Healthy" then localTargets else []) ++
                (getExternalTargets r host).1 = [] then []
           else
            [{ DNSName := host,
               Targets := (if health = "Healthy" then localTargets else []) ++
                 (getExternalTargets r host).1,
               RecordType := "A", RecordTTL := gslb.Strategy.DNSTtlSeconds }]))) ∧
    (∀ (out : DNSEndpoint) (serviceHealth : List (String × String)),
      gslbDNSEndpoint r gslb = Except.ok out →
      r.getServiceHealthStatus gslb = Except.ok serviceHealth →
      getGslbIngressIPs r gslb = Except.ok localTargets →
      out.Endpoints = serviceHealth.flatMap fun p =>
        (if p.2 = "Healthy" then
          [{ DNSName := "localtargets-" ++ p.1, Targets := localTargets, RecordType := "A",
             RecordTTL := gslb.Strategy.DNSTtlSeconds }]
         else []) ++
        (if (if p.2 = "Healthy" then localTargets else []) ++
              (getExternalTargets r p.1).1 = [] then []
         else
          [{ DNSName := p.1,
             Targets := (if p.2 = "Healthy" then localTargets else []) ++
               (getExternalTargets r p.1).1,
             RecordType := "A", RecordTTL := gslb.Strategy.DNSTtlSeconds }])) := by
  have key : ∀ p : String × String, iterationRecords r gslb localTargets p =
      (if p.2 = "Healthy" then
          [{ DNSName := "localtargets-" ++ p.1, Targets := localTargets, RecordType := "A",
             RecordTTL := gslb.Strategy.DNSTtlSeconds }]
         else []) ++
        (if (if p.2 = "Healthy" then localTargets else []) ++
              (getExternalTargets r p.1).1 = [] then []
         else
          [{ DNSName := p.1,
             Targets := (if p.2 = "Healthy" then localTargets else []) ++
               (getExternalTargets r p.1).1,
             RecordType := "A", RecordTTL := gslb.Strategy.DNSTtlSeconds }]) := by
    intro p
    simp only [iterationRecords, finalTargetsOf, hRR, if_true, localTargetsRecord, globalRecord]
    by_cases hh : p.2 = "Healthy" <;>
      cases hext : (getExternalTargets r p.1).1 <;>
      cases hlt : localTargets <;> simp [hh]
  constructor
  · intro host health gslbHosts hz
    rw [hostIteration_eq r gslb localTargets host health gslbHosts hz, key (host, health),
      List.append_assoc]
  · intro out serviceHealth hrun hs hl
    obtain ⟨sh, lt, hs2, hl2, _, hout⟩ := gslbDNSEndpoint_ok_inv r gslb out hrun
    rw [hs] at hs2
    rw [hl] at hl2
    cases hs2
    cases hl2
    rw [hout]
    congr 1
    funext p
    exact key p

/-- C5 (witness). Cluster `eu` under RoundRobin with the single peer `us`,
which answers `10.0.0.5` and `10.1.0.1`, the latter being the local target
as well; a Healthy and an Unhealthy host. The external targets are appended
and the duplicate stays. -/
theorem gslbDNSEndpoint_roundRobin_targets_witness :
    (appGslb roundRobinStrategy).Strategy.Type_ = roundRobinStrategy ∧
    getExternalTargets
        (reconcilerOn euOnePeerConfig (packedExchange [(usServer, ["10.0.0.5", "10.1.0.1"])])
          [("app.cloud.example.com", "Healthy"), ("db.cloud.example.com", "Unhealthy")])
        "app.cloud.example.com" = (["10.0.0.5", "10.1.0.1"], none) ∧
    gslbDNSEndpoint
        (reconcilerOn euOnePeerConfig (packedExchange [(usServer, ["10.0.0.5", "10.1.0.1"])])
          [("app.cloud.example.com", "Healthy"), ("db.cloud.example.com", "Unhealthy")])
        (appGslb roundRobinStrategy) =
      Except.ok (appEndpoint
        [aEndpoint "localtargets-app.cloud.example.com" ["10.1.0.1"],
         aEndpoint "app.cloud.example.com" ["10.1.0.1", "10.0.0.5", "10.1.0.1"],
         aEndpoint "db.cloud.example.com" ["10.0.0.5", "10.1.0.1"]]) ∧
    (appEndpoint
        [aEndpoint "localtargets-app.cloud.example.com" ["10.1.0.1"],
         aEndpoint "app.cloud.example.com" ["10.1.0.1", "10.0.0.5", "10.1.0.1"],
         aEndpoint "db.cloud.example.com" ["10.0.0.5", "10.1.0.1"]]).Endpoints =
      [aEndpoint "localtargets-app.cloud.example.com" ["10.1.0.1"],
       aEndpoint "app.cloud.example.com" (["10.1.0.1"] ++ ["10.0.0.5", "10.1.0.1"]),
       aEndpoint "db.cloud.example.com" ([] ++ ["10.0.0.5", "10.1.0.1"])] :=
  ⟨rfl, rfl, rfl,
    (gslbDNSEndpoint_roundRobin_targets
      (reconcilerOn euOnePeerConfig (packedExchange [(usServer, ["10.0.0.5", "10.1.0.1"])])
        [("app.cloud.example.com", "Healthy"), ("db.cloud.example.com", "Unhealthy")])
      (appGslb roundRobinStrategy) ["10.1.0.1"] rfl).2 _
      [("app.cloud.example.com", "Healthy"), ("db.cloud.example.com", "Unhealthy")]
      rfl rfl rfl⟩

/-- C6. Under the Failover strategy on the primary cluster (the cluster's
geoTag equals `PrimaryGeoTag`), the iteration for a Healthy host appends the
cluster-local record and, when the local target list is not empty, the
global record whose targets are exactly the local target list, whatever
`getExternalTargets` returned; a successful run has that global record in
its output. -/
theorem gslbDNSEndpoint_failover_primary_healthy (r : GslbReconciler) (gslb : Gslb)
    (localTargets : List String) (host : String)
    (hF : gslb.Strategy.Type_ = failoverStrategy)
    (hP : gslb.Strategy.PrimaryGeoTag = r.Config.ClusterGeoTag)
    (hz : strings.Contains host r.Config.EdgeDNSZone = true) :
    (∀ gslbHosts : List Endpoint,
      hostIteration r gslb gslb.Strategy.DNSTtlSeconds localTargets host "Healthy" gslbHosts =
        Except.ok (gslbHosts ++
          [{ DNSName := "localtargets-" ++ host, Targets := localTargets, RecordType := "A",
             RecordTTL := gslb.Strategy.DNSTtlSeconds }] ++
          (if localTargets = [] then []
           else [{ DNSName := host, Targets := localTargets, RecordType := "A",
                   RecordTTL := gslb.Strategy.DNSTtlSeconds }]))) ∧
    (∀ (out : DNSEndpoint) (serviceHealth : List (String × String)),
      gslbDNSEndpoint r gslb = Except.ok out →
      r.getServiceHealthStatus gslb = Except.ok serviceHealth →
      getGslbIngressIPs r gslb = Except.ok localTargets →
      (host, "Healthy") ∈ serviceHealth → localTargets ≠ [] →
      ({ DNSName := host, Targets := localTargets, RecordType := "A",
         RecordTTL := gslb.Strategy.DNSTtlSeconds } : Endpoint) ∈ out.Endpoints) := by
  have hne : ¬ failoverStrategy = roundRobinStrategy := by decide
  have key : iterationRecords r gslb localTargets (host, "Healthy") =
      [{ DNSName := "localtargets-" ++ host, Targets := localTargets, RecordType := "A",
         RecordTTL := gslb.Strategy.DNSTtlSeconds }] ++
      (if localTargets = [] then []
       else [{ DNSName := host, Targets := localTargets, RecordType := "A",
               RecordTTL := gslb.Strategy.DNSTtlSeconds }]) := by
    simp only [iterationRecords, finalTargetsOf, hF, hP, hne, if_true, if_false,
      localTargetsRecord, globalRecord]
    cases hext : (getExternalTargets r host).1 <;> cases hlt : localTargets <;> simp
  constructor
  · intro gslbHosts
    rw [hostIteration_eq r gslb localTargets host "Healthy" gslbHosts hz, key, List.append_assoc]
  · intro out serviceHealth hrun hs hl hmem hlt
    obtain ⟨sh, lt, hs2, hl2, _, hout⟩ := gslbDNSEndpoint_ok_inv r gslb out hrun
    rw [hs] at hs2
    rw [hl] at hl2
    cases hs2
    cases hl2
    rw [hout, List.mem_flatMap]
    refine ⟨(host, "Healthy"), hmem, ?_⟩
    rw [key]
    simp [hlt]

/-- C6 (witness). Primary `eu` with the single peer `us`, which answers
`10.0.0.5`; Healthy host. `getExternalTargets` returns `["10.0.0.5"]` and the
global record carries the local target only. -/
theorem gslbDNSEndpoint_failover_primary_healthy_witness :
    getExternalTargets
        (reconcilerOn euOnePeerConfig (packedExchange [(usServer, ["10.0.0.5"])])
          [("app.cloud.example.com", "Healthy")])
        "app.cloud.example.com" = (["10.0.0.5"], none) ∧
    gslbDNSEndpoint
        (reconcilerOn euOnePeerConfig (packedExchange [(usServer, ["10.0.0.5"])])
          [("app.cloud.example.com", "Healthy")])
        (appGslb failoverStrategy) =
      Except.ok (appEndpoint
        [aEndpoint "localtargets-app.cloud.example.com" ["10.1.0.1"],
         aEndpoint "app.cloud.example.com" ["10.1.0.1"]]) ∧
    hostIteration
        (reconcilerOn euOnePeerConfig (packedExchange [(usServer, ["10.0.0.5"])])
          [("app.cloud.example.com", "Healthy")])
        (appGslb failoverStrategy) 30 ["10.1.0.1"] "app.cloud.example.com" "Healthy" [] =
      Except.ok ([] ++ [aEndpoint "localtargets-app.cloud.example.com" ["10.1.0.1"]] ++
        [aEndpoint "app.cloud.example.com" ["10.1.0.1"]]) ∧
    aEndpoint "app.cloud.example.com" ["10.1.0.1"] ∈
      (appEndpoint
        [aEndpoint "localtargets-app.cloud.example.com" ["10.1.0.1"],
         aEndpoint "app.cloud.example.com" ["10.1.0.1"]]).Endpoints :=
  ⟨rfl, rfl,
    (gslbDNSEndpoint_failover_primary_healthy
      (reconcilerOn euOnePeerConfig (packedExchange [(usServer, ["10.0.0.5"])])
        [("app.cloud.example.com", "Healthy")])
      (appGslb failoverStrategy) ["10.1.0.1"] "app.cloud.example.com" rfl rfl rfl).1 [],
    (gslbDNSEndpoint_failover_primary_healthy
      (reconcilerOn euOnePeerConfig (packedExchange [(usServer, ["10.0.0.5"])])
        [("app.cloud.example.com", "Healthy")])
      (appGslb failoverStrategy) ["10.1.0.1"] "app.cloud.example.com" rfl rfl rfl).2 _
      [("app.cloud.example.com", "Healthy")] rfl rfl rfl (by simp) (by simp)⟩

/-- C7. Under the Failover strategy on the primary cluster, the iteration
for a host that is not Healthy and for which `getExternalTargets` returned a
non-empty list appends exactly one record, the global record whose targets
are that list, whatever the local target list is; a successful run has that
record in its output. -/
theorem gslbDNSEndpoint_failover_primary_unhealthy (r : GslbReconciler) (gslb : Gslb)
    (localTargets : List String) (host health : String)
    (hF : gslb.Strategy.Type_ = failoverStrategy)
    (hP : gslb.Strategy.PrimaryGeoTag = r.Config.ClusterGeoTag)
    (hh : health ≠ "Healthy")
    (hext : (getExternalTargets r host).1 ≠ [])
    (hz : strings.Contains host r.Config.EdgeDNSZone = true) :
    (∀ gslbHosts : List Endpoint,
      hostIteration r gslb gslb.Strategy.DNSTtlSeconds localTargets host health gslbHosts =
        Except.ok (gslbHosts ++
          [{ DNSName := host, Targets := (getExternalTargets r host).1, RecordType := "A",
             RecordTTL := gslb.Strategy.DNSTtlSeconds }])) ∧
    (∀ (out : DNSEndpoint) (serviceHealth : List (String × String)),
      gslbDNSEndpoint r gslb = Except.ok out →
      r.getServiceHealthStatus gslb = Except.ok serviceHealth →
      getGslbIngressIPs r gslb = Except.ok localTargets →
      (host, health) ∈ serviceHealth →
      ({ DNSName := host, Targets := (getExternalTargets r host).1, RecordType := "A",
         RecordTTL := gslb.Strategy.DNSTtlSeconds } : Endpoint) ∈ out.Endpoints) := by
  have hne : ¬ failoverStrategy = roundRobinStrategy := by decide
  have hlen : 0 < (getExternalTargets r host).1.length := List.length_pos.mpr hext
  have key : iterationRecords r gslb localTargets (host, health) =
      [{ DNSName := host, Targets := (getExternalTargets r host).1, RecordType := "A",
         RecordTTL := gslb.Strategy.DNSTtlSeconds }] := by
    simp [iterationRecords, finalTargetsOf, hF, hP, hne, hh, hlen, globalRecord]
  constructor
  · intro gslbHosts
    rw [hostIteration_eq r gslb localTargets host health gslbHosts hz, key]
  · intro out serviceHealth hrun hs hl hmem
    obtain ⟨sh, lt, hs2, hl2, _, hout⟩ := gslbDNSEndpoint_ok_inv r gslb out hrun
    rw [hs] at hs2
    rw [hl] at hl2
    cases hs2
    cases hl2
    rw [hout, List.mem_flatMap]
    exact ⟨(host, health), hmem, by rw [key]; simp⟩

/-- C7 (witness). Primary `eu` with the single peer `us`, which answers
`10.0.0.5`; Unhealthy host. `getExternalTargets` returns `["10.0.0.5"]` and
the only record is the global record with the targets `["10.0.0.5"]`. -/
theorem gslbDNSEndpoint_failover_primary_unhealthy_witness :
    getExternalTargets
        (reconcilerOn euOnePeerConfig (packedExchange [(usServer, ["10.0.0.5"])])
          [("app.cloud.example.com", "Unhealthy")])
        "app.cloud.example.com" = (["10.0.0.5"], none) ∧
    gslbDNSEndpoint
        (reconcilerOn euOnePeerConfig (packedExchange [(usServer, ["10.0.0.5"])])
          [("app.cloud.example.com", "Unhealthy")])
        (appGslb failoverStrategy) =
      Except.ok (appEndpoint [aEndpoint "app.cloud.example.com" ["10.0.0.5"]]) ∧
    hostIteration
        (reconcilerOn euOnePeerConfig (packedExchange [(usServer, ["10.0.0.5"])])
          [("app.cloud.example.com", "Unhealthy")])
        (appGslb failoverStrategy) 30 ["10.1.0.1"] "app.cloud.example.com" "Unhealthy" [] =
      Except.ok ([] ++ [aEndpoint "app.cloud.example.com" ["10.0.0.5"]]) :=
  ⟨rfl, rfl,
    (gslbDNSEndpoint_failover_primary_unhealthy
      (reconcilerOn euOnePeerConfig (packedExchange [(usServer, ["10.0.0.5"])])
        [("app.cloud.example.com", "Unhealthy")])
      (appGslb failoverStrategy) ["10.1.0.1"] "app.cloud.example.com" "Unhealthy"
      rfl rfl (by decide) (by decide) rfl).1 []⟩

/-- C8. Under the Failover strategy on a secondary cluster (the cluster's
geoTag differs from `PrimaryGeoTag`), the iteration for a host for which
`getExternalTargets` returned a non-empty list appends the global record
whose targets are exactly that list, whatever the host's health and the
local target list (a Healthy host also gets its cluster-local record
first); a successful run has that global record in its output. -/
theorem gslbDNSEndpoint_failover_secondary (r : GslbReconciler) (gslb : Gslb)
    (localTargets : List String) (host health : String)
    (hF : gslb.Strategy.Type_ = failoverStrategy)
    (hS : gslb.Strategy.PrimaryGeoTag ≠ r.Config.ClusterGeoTag)
    (hext : (getExternalTargets r host).1 ≠ [])
    (hz : strings.Contains host r.Config.EdgeDNSZone = true) :
    (∀ gslbHosts : List Endpoint,
      hostIteration r gslb gslb.Strategy.DNSTtlSeconds localTargets host health gslbHosts =
        Except.ok (gslbHosts ++
          (if health = "Healthy" then
            [{ DNSName := "localtargets-" ++ host, Targets := localTargets, RecordType := "A",
               RecordTTL := gslb.Strategy.DNSTtlSeconds }]
           else []) ++
          [{ DNSName := host, Targets := (getExternalTargets r host).1, RecordType := "A",
             RecordTTL := gslb.Strategy.DNSTtlSeconds }])) ∧
    (∀ (out : DNSEndpoint) (serviceHealth : List (String × String)),
      gslbDNSEndpoint r gslb = Except.ok out →
      r.getServiceHealthStatus gslb = Except.ok serviceHealth →
      getGslbIngressIPs r gslb = Except.ok localTargets →
      (host, health) ∈ serviceHealth →
      ({ DNSName := host, Targets := (getExternalTargets r host).1, RecordType := "A",
         RecordTTL := gslb.Strategy.DNSTtlSeconds } : Endpoint) ∈ out.Endpoints) := by
  have hne : ¬ failoverStrategy = roundRobinStrategy := by decide
  have hlen : 0 < (getExternalTargets r host).1.length := List.length_pos.mpr hext
  have key : iterationRecords r gslb localTargets (host, health) =
      (if health = "Healthy" then
        [{ DNSName := "localtargets-" ++ host, Targets := localTargets, RecordType := "A",
           RecordTTL := gslb.Strategy.DNSTtlSeconds }]
       else []) ++
      [{ DNSName := host, Targets := (getExternalTargets r host).1, RecordType := "A",
         RecordTTL := gslb.Strategy.DNSTtlSeconds }] := by
    simp [iterationRecords, finalTargetsOf, hF, hS, hne, hlen, globalRecord, localTargetsRecord]
  constructor
  · intro gslbHosts
    rw [hostIteration_eq r gslb localTargets host health gslbHosts hz, key, List.append_assoc]
  · intro out serviceHealth hrun hs hl hmem
    obtain ⟨sh, lt, hs2, hl2, _, hout⟩ := gslbDNSEndpoint_ok_inv r gslb out hrun
    rw [hs] at hs2
    rw [hl] at hl2
    cases hs2
    cases hl2
    rw [hout, List.mem_flatMap]
    exact ⟨(host, health), hmem, by rw [key]; simp⟩

/-- C8 (witness). Secondary `us`, external targets `["10.0.0.9"]`: the global
record carries `["10.0.0.9"]` for a Healthy and for an Unhealthy host. -/
theorem gslbDNSEndpoint_failover_secondary_witness :
    gslbDNSEndpoint
        (reconcilerOn usConfig (tableExchange [(euServer, ["10.0.0.9"])])
          [("app.cloud.example.com", "Healthy")])
        (appGslb failoverStrategy) =
      Except.ok (appEndpoint
        [aEndpoint "localtargets-app.cloud.example.com" ["10.1.0.1"],
         aEndpoint "app.cloud.example.com" ["10.0.0.9"]]) ∧
    gslbDNSEndpoint
        (reconcilerOn usConfig (tableExchange [(euServer, ["10.0.0.9"])])
          [("app.cloud.example.com", "Unhealthy")])
        (appGslb failoverStrategy) =
      Except.ok (appEndpoint [aEndpoint "app.cloud.example.com" ["10.0.0.9"]]) ∧
    hostIteration
        (reconcilerOn usConfig (tableExchange [(euServer, ["10.0.0.9"])])
          [("app.cloud.example.com", "Healthy")])
        (appGslb failoverStrategy) 30 ["10.1.0.1"] "app.cloud.example.com" "Healthy" [] =
      Except.ok ([] ++ [aEndpoint "localtargets-app.cloud.example.com" ["10.1.0.1"]] ++
        [aEndpoint "app.cloud.example.com" ["10.0.0.9"]]) :=
  ⟨rfl, rfl,
    (gslbDNSEndpoint_failover_secondary
      (reconcilerOn usConfig (tableExchange [(euServer, ["10.0.0.9"])])
        [("app.cloud.example.com", "Healthy")])
      (appGslb failoverStrategy) ["10.1.0.1"] "app.cloud.example.com" "Healthy"
      rfl (by decide) (by decide) rfl).1 []⟩

/-! ## Suppression of the empty global record -/

theorem guard_eq_none (P : Prop) [Decidable P] (e : Error) :
    (if P then some e else none) = none ↔ ¬ P := by
  by_cases h : P <;> simp [h]

theorem guard_eq_some (P : Prop) [Decidable P] (e : Error) :
    (if P then some e else none) = some e ↔ P := by
  by_cases h : P <;> simp [h]

/-- The three cases of `t.Sub(u)`: above the range, below the range, and the
exact difference. -/
theorem time.Time.Sub_cases (t u : time.Time) :
    (t.unixNano - u.unixNano > time.maxDuration ∧ t.Sub u = time.maxDuration) ∨
    (t.unixNano - u.unixNano < time.minDuration ∧ t.Sub u = time.minDuration) ∨
    (time.minDuration ≤ t.unixNano - u.unixNano ∧ t.unixNano - u.unixNano ≤ time.maxDuration ∧
      t.Sub u = t.unixNano - u.unixNano) := by
  unfold time.Time.Sub
  by_cases h1 : t.unixNano - u.unixNano > time.maxDuration
  · left; exact ⟨h1, by rw [if_pos h1]⟩
  · by_cases h2 : t.unixNano - u.unixNano < time.minDuration
    · right; left; exact ⟨h2, by rw [if_neg h1, if_pos h2]⟩
    · right; right
      exact ⟨not_lt.mp h2, not_lt.mp h1, by rw [if_neg h1, if_neg h2]⟩

/-! ## The staleness guard -/

/-- What `checkAliveFromTXT` returns once the TXT payload has been parsed:
the comparison of line 256 on the duration `now.Sub(timeFromTXT)`. -/
theorem checkAliveFromTXT_parsed (exchange : Exchange)
    (parse : String → Except Error time.Time) (now ts : time.Time) (fqdn : String)
    (config : Config) (threshold : Int) (t : RR) (rest : List RR)
    (hx : exchange (Fqdn fqdn) QType.TXT
      (overrideWithFakeDNS config.FakeDNSEnabled config.EdgeDNSServer) = Except.ok ⟨t :: rest⟩)
    (ht : t.isTXT = true)
    (hlen : (strings.Trim (column4 t) '"').length > 0)
    (hp : parse (strings.Trim (column4 t) '"') = Except.ok ts) :
    checkAliveFromTXT exchange parse now fqdn config threshold =
      if now.Sub ts > threshold then some (Error.goneExpired threshold) else none := by
  simp only [checkAliveFromTXT, hx, ht, if_true, hlen, hp]

/-- C10 (counterexample). Threshold `1<<63 - 1` nanoseconds, the largest
`time.Duration`; heartbeat payload `0001-01-01T00:00:00`; now
2026-11-01T12:00:00Z. The time elapsed since the heartbeat exceeds the
threshold, yet `checkAliveFromTXT` returns no error: `now.Sub` yields the
largest `Duration`, which is not above the threshold. -/
theorem checkAliveFromTXT_old_heartbeat_accepted_at_max_threshold :
    noon.unixNano - (-62135596800000000000) > time.maxDuration ∧
    parseTable knownTimestamps "0001-01-01T00:00:00" = Except.ok ⟨-62135596800000000000⟩ ∧
    checkAliveFromTXT (heartbeatExchange "0001-01-01T00:00:00") (parseTable knownTimestamps)
      noon "app-heartbeat-us.example.com" euConfig time.maxDuration = none :=
  ⟨by decide, rfl, by decide⟩

/-- C10 (amended). For a heartbeat whose TXT payload parses to `ts` and every
threshold that is a `time.Duration`: `checkAliveFromTXT` returns no error
whenever `now - ts <= threshold`, so also when `now - ts` equals the
threshold; it returns the expired error when `now - ts > threshold` and the
threshold is below the largest `Duration`; at the largest `Duration` it
returns no error for any timestamp. In every case it returns the expired
error exactly when the duration `now.Sub(ts)` is above the threshold. -/
theorem checkAliveFromTXT_threshold_boundary (exchange : Exchange)
    (parse : String → Except Error time.Time) (now ts : time.Time) (fqdn : String)
    (config : Config) (threshold : Int) (t : RR) (rest : List RR)
    (hx : exchange (Fqdn fqdn) QType.TXT
      (overrideWithFakeDNS config.FakeDNSEnabled config.EdgeDNSServer) = Except.ok ⟨t :: rest⟩)
    (ht : t.isTXT = true)
    (hlen : (strings.Trim (column4 t) '"').length > 0)
    (hp : parse (strings.Trim (column4 t) '"') = Except.ok ts)
    (hmin : time.minDuration ≤ threshold) (hmax : threshold ≤ time.maxDuration) :
    (now.unixNano - ts.unixNano ≤ threshold →
      checkAliveFromTXT exchange parse now fqdn config threshold = none) ∧
    (now.unixNano - ts.unixNano = threshold →
      checkAliveFromTXT exchange parse now fqdn config threshold = none) ∧
    (now.unixNano - ts.unixNano > threshold → threshold < time.maxDuration →
      checkAliveFromTXT exchange parse now fqdn config threshold =
        some (Error.goneExpired threshold)) ∧
    (threshold = time.maxDuration →
      checkAliveFromTXT exchange parse now fqdn config threshold = none) ∧
    (checkAliveFromTXT exchange parse now fqdn config threshold =
        some (Error.goneExpired threshold) ↔ now.Sub ts > threshold) ∧
    (checkAliveFromTXT exchange parse now fqdn config threshold = none ↔
      now.Sub ts ≤ threshold) := by
  rw [checkAliveFromTXT_parsed exchange parse now ts fqdn config threshold t rest hx ht hlen hp]
  have hminv : time.minDuration = -9223372036854775808 := by decide
  have hmaxv : time.maxDuration = 9223372036854775807 := by decide
  have hclamp := time.Time.Sub_cases now ts
  rw [hminv, hmaxv] at hclamp
  rw [hminv] at hmin
  rw [hmaxv] at hmax ⊢
  simp only [guard_eq_none, guard_eq_some]
  generalize now.Sub ts = d at hclamp ⊢
  generalize now.unixNano - ts.unixNano = x at hclamp ⊢
  refine ⟨?_, ?_, ?_, ?_, trivial, ?_⟩
  · intro h; omega
  · intro h; omega
  · intro h hlt; omega
  · intro h; omega
  · constructor <;> intro h <;> omega

/-- C10 (witness). A heartbeat five minutes old: accepted with a threshold of
exactly five minutes, expired with a threshold one nanosecond shorter. -/
theorem checkAliveFromTXT_threshold_boundary_witness :
    noon.unixNano - 1793534100000000000 = 300000000000 ∧
    checkAliveFromTXT (heartbeatExchange "2026-11-01T11:55:00") (parseTable knownTimestamps)
      noon "app-heartbeat-us.example.com" euConfig 300000000000 = none ∧
    checkAliveFromTXT (heartbeatExchange "2026-11-01T11:55:00") (parseTable knownTimestamps)
      noon "app-heartbeat-us.example.com" euConfig 299999999999 =
        some (Error.goneExpired 299999999999) :=
  ⟨by decide,
    (checkAliveFromTXT_threshold_boundary (heartbeatExchange "2026-11-01T11:55:00")
      (parseTable knownTimestamps) noon ⟨1793534100000000000⟩ "app-heartbeat-us.example.com"
      euConfig 300000000000
      { text := "app-heartbeat-us.example.com.\t30\tIN\tTXT\t\"2026-11-01T11:55:00\"",
        isTXT := true } []
      rfl rfl (by decide) rfl (by decide) (by decide)).2.1 (by decide),
    (checkAliveFromTXT_threshold_boundary (heartbeatExchange "2026-11-01T11:55:00")
      (parseTable knownTimestamps) noon ⟨1793534100000000000⟩ "app-heartbeat-us.example.com"
      euConfig 299999999999
      { text := "app-heartbeat-us.example.com.\t30\tIN\tTXT\t\"2026-11-01T11:55:00\"",
        isTXT := true } []
      rfl rfl (by decide) rfl (by decide) (by decide)).2.2.1 (by decide)
      (by decide)⟩

/-! ## `filterOutDelegateTo` is a filter -/

/-- The loop of `filterOutDelegateTo` from the state `(delegateTo, i)`: the
first `i` entries stay, the entries from index `i` on are filtered. -/
theorem filterOutDelegateToLoop_eq (fqdn : String) (delegateTo : List NameServer) (i : Nat) :
    filterOutDelegateToLoop fqdn delegateTo i =
      delegateTo.take i ++ (delegateTo.drop i).filter (fun ns => decide (ns.Name ≠ fqdn)) := by
  induction delegateTo, i using filterOutDelegateToLoop.induct fqdn with
  | case1 delegateTo i h hm ih =>
    rw [filterOutDelegateToLoop, dif_pos h, if_pos hm, ih]
    have hlen : (delegateTo.take i).length = i := by
      rw [List.length_take]; omega
    have h1 : (delegateTo.take i ++ delegateTo.drop (i + 1)).take i = delegateTo.take i := by
      rw [List.take_append_eq_append_take, hlen]; simp
    have h2 : (delegateTo.take i ++ delegateTo.drop (i + 1)).drop i = delegateTo.drop (i + 1) := by
      rw [List.drop_append_eq_append_drop, hlen]; simp
    have h3 : delegateTo.drop i = delegateTo[i] :: delegateTo.drop (i + 1) :=
      List.drop_eq_getElem_cons h
    rw [h1, h2, h3, List.filter_cons]
    simp [hm]
  | case2 delegateTo i h hm ih =>
    rw [filterOutDelegateToLoop, dif_pos h, if_neg hm, ih]
    have h3 : delegateTo.drop i = delegateTo[i] :: delegateTo.drop (i + 1) :=
      List.drop_eq_getElem_cons h
    have h4 : delegateTo.take (i + 1) = delegateTo.take i ++ [delegateTo[i]] :=
      (List.take_concat_get' delegateTo i h).symm
    rw [h3, h4, List.filter_cons, List.append_assoc]
    simp only [ne_eq, hm, not_false_eq_true, decide_True, if_true, List.singleton_append]
  | case3 delegateTo i h =>
    rw [filterOutDelegateToLoop, dif_neg h]
    have hle : delegateTo.length ≤ i := Nat.le_of_not_lt h
    rw [List.take_of_length_le hle, List.drop_eq_nil_of_le hle]
    simp

/-- C19. `filterOutDelegateTo` is the plain filter: the result is the list of
the entries whose `Name` differs from `fqdn`, in their order, also when the
entries named `fqdn` are consecutive or are all the entries; no entry named
`fqdn` is in the result, every other entry is, and applying the function to
its own result changes nothing. -/
theorem filterOutDelegateTo_is_filter (delegateTo : List NameServer) (fqdn : String) :
    filterOutDelegateTo delegateTo fqdn =
      delegateTo.filter (fun ns => decide (ns.Name ≠ fqdn)) ∧
    (∀ ns ∈ filterOutDelegateTo delegateTo fqdn, ns.Name ≠ fqdn) ∧
    (∀ ns, ns ∈ filterOutDelegateTo delegateTo fqdn ↔ ns ∈ delegateTo ∧ ns.Name ≠ fqdn) ∧
    List.Sublist (filterOutDelegateTo delegateTo fqdn) delegateTo ∧
    (filterOutDelegateTo delegateTo fqdn = [] ↔ ∀ ns ∈ delegateTo, ns.Name = fqdn) ∧
    filterOutDelegateTo (filterOutDelegateTo delegateTo fqdn) fqdn =
      filterOutDelegateTo delegateTo fqdn := by
  have key : ∀ l : List NameServer,
      filterOutDelegateTo l fqdn = l.filter (fun ns => decide (ns.Name ≠ fqdn)) := by
    intro l
    rw [filterOutDelegateTo, filterOutDelegateToLoop_eq]
    simp
  refine ⟨key _, ?_, ?_, ?_, ?_, ?_⟩
  · intro ns hns
    rw [key, List.mem_filter] at hns
    simpa using hns.2
  · intro ns
    rw [key, List.mem_filter]
    simp
  · rw [key]
    exact List.filter_sublist _
  · rw [key, List.filter_eq_nil_iff]
    simp
  · rw [key, key, List.filter_filter]
    simp

/-- C19 (witness). Two consecutive entries named `fqdn`, then a list whose
entries are all named `fqdn`. -/
theorem filterOutDelegateTo_is_filter_witness :
    filterOutDelegateTo
        [⟨"10.0.0.1", "ns-eu.example.com"⟩, ⟨"10.0.0.2", "ns-us.example.com"⟩,
         ⟨"10.0.0.3", "ns-us.example.com"⟩, ⟨"10.0.0.4", "ns-za.example.com"⟩]
        "ns-us.example.com" =
      [⟨"10.0.0.1", "ns-eu.example.com"⟩, ⟨"10.0.0.4", "ns-za.example.com"⟩] ∧
    filterOutDelegateTo
        [⟨"10.0.0.2", "ns-us.example.com"⟩, ⟨"10.0.0.3", "ns-us.example.com"⟩]
        "ns-us.example.com" = [] :=
  ⟨(filterOutDelegateTo_is_filter _ _).1.trans (by decide),
    (filterOutDelegateTo_is_filter _ _).1.trans (by decide)⟩

/-! ## The failure modes of the staleness guard -/

/-- `checkAliveFromTXT` in terms of `timestampOf`, once the exchange has
answered. -/
theorem checkAliveFromTXT_answered (exchange : Exchange)
    (parse : String → Except Error time.Time) (now : time.Time) (fqdn : String)
    (config : Config) (threshold : Int) (txt : Msg)
    (hx : exchange (Fqdn fqdn) QType.TXT
      (overrideWithFakeDNS config.FakeDNSEnabled config.EdgeDNSServer) = Except.ok txt) :
    checkAliveFromTXT exchange parse now fqdn config threshold =
      if (timestampOf txt).length > 0 then
        match parse (timestampOf txt) with
        | Except.error err => some err
        | Except.ok timeFromTXT =>
          if now.Sub timeFromTXT > threshold then some (Error.goneExpired threshold) else none
      else
        some (Error.goneNoRecord
          (overrideWithFakeDNS config.FakeDNSEnabled config.EdgeDNSServer) fqdn) := by
  simp only [checkAliveFromTXT, hx, timestampOf]

/-- C11 (counterexample). Threshold `1<<63 - 1` nanoseconds, heartbeat
payload `1700-01-01T00:00:00`, now 2026-11-01T12:00:00Z: the query succeeds,
the TXT answer is present and parses, `now - timestamp` is above the
threshold, and `checkAliveFromTXT` returns no error. -/
theorem checkAliveFromTXT_fourth_mode_without_error :
    timestampOf ⟨[{ text := "app-heartbeat-za.example.com.\t30\tIN\tTXT\t\"1700-01-01T00:00:00\"",
                    isTXT := true }]⟩ = "1700-01-01T00:00:00" ∧
    parseTable [("1700-01-01T00:00:00", -8520336000000000000)] "1700-01-01T00:00:00" =
      Except.ok ⟨-8520336000000000000⟩ ∧
    noon.unixNano - (-8520336000000000000) > time.maxDuration ∧
    checkAliveFromTXT (heartbeatExchange "1700-01-01T00:00:00")
      (parseTable [("1700-01-01T00:00:00", -8520336000000000000)])
      noon "app-heartbeat-za.example.com" euConfig time.maxDuration = none :=
  ⟨by decide, rfl, by decide, by decide⟩

/-- C11 (amended). `checkAliveFromTXT` returns an error if and only if one of
four failure modes occurs: the query to the edge DNS server fails; the
response has no TXT answer (empty answer section, first answer not a TXT
record, or empty text payload); the payload is not parsable; or the duration
`now.Sub(timestamp)` is above the threshold, which for a threshold below the
largest `Duration` is `now - timestamp > threshold`. Each mode returns its
own error, and in every other case the result is no error. -/
theorem checkAliveFromTXT_error_iff (exchange : Exchange)
    (parse : String → Except Error time.Time) (now : time.Time) (fqdn : String)
    (config : Config) (threshold : Int) :
    (checkAliveFromTXT exchange parse now fqdn config threshold ≠ none ↔
      (∃ err, exchange (Fqdn fqdn) QType.TXT
          (overrideWithFakeDNS config.FakeDNSEnabled config.EdgeDNSServer) = Except.error err) ∨
      (∃ txt, exchange (Fqdn fqdn) QType.TXT
          (overrideWithFakeDNS config.FakeDNSEnabled config.EdgeDNSServer) = Except.ok txt ∧
        (timestampOf txt).length = 0) ∨
      (∃ txt err, exchange (Fqdn fqdn) QType.TXT
          (overrideWithFakeDNS config.FakeDNSEnabled config.EdgeDNSServer) = Except.ok txt ∧
        (timestampOf txt).length > 0 ∧ parse (timestampOf txt) = Except.error err) ∨
      (∃ txt ts, exchange (Fqdn fqdn) QType.TXT
          (overrideWithFakeDNS config.FakeDNSEnabled config.EdgeDNSServer) = Except.ok txt ∧
        (timestampOf txt).length > 0 ∧ parse (timestampOf txt) = Except.ok ts ∧
        now.Sub ts > threshold)) ∧
    (∀ txt : Msg, (timestampOf txt).length = 0 ↔
      txt.Answer = [] ∨
      ∃ t rest, txt.Answer = t :: rest ∧
        (t.isTXT = false ∨ (strings.Trim (column4 t) '"').length = 0)) ∧
    (∀ ts : time.Time, time.minDuration ≤ threshold → threshold < time.maxDuration →
      (now.Sub ts > threshold ↔ now.unixNano - ts.unixNano > threshold)) ∧
    (∀ err, exchange (Fqdn fqdn) QType.TXT
        (overrideWithFakeDNS config.FakeDNSEnabled config.EdgeDNSServer) = Except.error err →
      checkAliveFromTXT exchange parse now fqdn config threshold = some err) ∧
    (∀ txt, exchange (Fqdn fqdn) QType.TXT
        (overrideWithFakeDNS config.FakeDNSEnabled config.EdgeDNSServer) = Except.ok txt →
      (timestampOf txt).length = 0 →
      checkAliveFromTXT exchange parse now fqdn config threshold =
        some (Error.goneNoRecord
          (overrideWithFakeDNS config.FakeDNSEnabled config.EdgeDNSServer) fqdn)) ∧
    (∀ txt err, exchange (Fqdn fqdn) QType.TXT
        (overrideWithFakeDNS config.FakeDNSEnabled config.EdgeDNSServer) = Except.ok txt →
      (timestampOf txt).length > 0 → parse (timestampOf txt) = Except.error err →
      checkAliveFromTXT exchange parse now fqdn config threshold = some err) ∧
    (∀ txt ts, exchange (Fqdn fqdn) QType.TXT
        (overrideWithFakeDNS config.FakeDNSEnabled config.EdgeDNSServer) = Except.ok txt →
      (timestampOf txt).length > 0 → parse (timestampOf txt) = Except.ok ts →
      now.Sub ts > threshold →
      checkAliveFromTXT exchange parse now fqdn config threshold =
        some (Error.goneExpired threshold)) := by
  have hminv : time.minDuration = -9223372036854775808 := by decide
  have hmaxv : time.maxDuration = 9223372036854775807 := by decide
  refine ⟨?_, ?_, ?_, ?_, ?_, ?_, ?_⟩
  · cases hx : exchange (Fqdn fqdn) QType.TXT
        (overrideWithFakeDNS config.FakeDNSEnabled config.EdgeDNSServer) with
    | error e => simp [checkAliveFromTXT, hx]
    | ok txt =>
      rw [checkAliveFromTXT_answered exchange parse now fqdn config threshold txt hx]
      by_cases hlen : (timestampOf txt).length > 0
      · have hne : ¬ (timestampOf txt).length = 0 := by omega
        cases hp : parse (timestampOf txt) with
        | error e => simp [hlen, hp]
        | ok ts =>
          by_cases hd : now.Sub ts > threshold
          · simp [hlen, hne, hd, hp]
          · simp only [hlen, hne, hd, hp, if_true, if_false, ne_eq, not_true_eq_false,
              false_iff, not_or, not_exists, not_and]
            refine ⟨fun e he => by simp at he, ?_, ?_, ?_⟩
            · intro m hm
              simp only [Except.ok.injEq] at hm
              subst hm
              exact hne
            · intro m e hm _ he
              simp only [Except.ok.injEq] at hm
              subst hm
              rw [hp] at he
              simp at he
            · intro m u hm _ hu
              simp only [Except.ok.injEq] at hm
              subst hm
              rw [hp] at hu
              simp only [Except.ok.injEq] at hu
              subst hu
              exact hd
      · have heq : (timestampOf txt).length = 0 := by omega
        simp [heq]
  · intro txt
    rcases txt with ⟨answer⟩
    cases answer with
    | nil => simp [timestampOf]
    | cons t rest =>
      cases ht : t.isTXT <;> simp [timestampOf, ht]
  · intro ts hmin hlt
    have hclamp := time.Time.Sub_cases now ts
    rw [hminv, hmaxv] at hclamp
    rw [hminv] at hmin
    rw [hmaxv] at hlt
    generalize now.Sub ts = d at hclamp ⊢
    generalize now.unixNano - ts.unixNano = x at hclamp ⊢
    constructor <;> intro h <;> omega
  · intro err hx
    simp [checkAliveFromTXT, hx]
  · intro txt hx hlen
    rw [checkAliveFromTXT_answered exchange parse now fqdn config threshold txt hx]
    simp [hlen]
  · intro txt err hx hlen hp
    rw [checkAliveFromTXT_answered exchange parse now fqdn config threshold txt hx]
    simp [hlen, hp]
  · intro txt ts hx hlen hp hd
    rw [checkAliveFromTXT_answered exchange parse now fqdn config threshold txt hx]
    simp [hlen, hp, hd]

/-- C11 (witness). An empty answer section gives the record-not-found
error, a payload that does not parse gives the parse error. -/
theorem checkAliveFromTXT_error_iff_witness :
    checkAliveFromTXT (fun _ _ _ => Except.ok ⟨[]⟩) (parseTable knownTimestamps) noon
        "app-heartbeat-us.example.com" euConfig 300000000000 =
      some (Error.goneNoRecord "8.8.8.8:53" "app-heartbeat-us.example.com") ∧
    checkAliveFromTXT (heartbeatExchange "yesterday") (parseTable knownTimestamps) noon
        "app-heartbeat-us.example.com" euConfig 300000000000 =
      some (Error.collaborator "parsing time: cannot parse") :=
  ⟨(checkAliveFromTXT_error_iff (fun _ _ _ => Except.ok ⟨[]⟩) (parseTable knownTimestamps) noon
      "app-heartbeat-us.example.com" euConfig 300000000000).2.2.2.2.1 ⟨[]⟩ rfl (by decide),
    (checkAliveFromTXT_error_iff (heartbeatExchange "yesterday") (parseTable knownTimestamps)
      noon "app-heartbeat-us.example.com" euConfig 300000000000).2.2.2.2.2.1
      ⟨[{ text := "app-heartbeat-us.example.com.\t30\tIN\tTXT\t\"yesterday\"", isTXT := true }]⟩
      (Error.collaborator "parsing time: cannot parse") rfl (by decide) rfl⟩

/-! ## Peer errors stay inside Peer Target Discovery -/

/-- C12 (counterexample). The health map and the local targets were
obtained and the host passes the zone check, yet `gslbDNSEndpoint` returns an
error and no record set: `SetControllerReference` (lines 203-206) failed. -/
theorem gslbDNSEndpoint_fails_after_zone_check :
    (reconcilerWithoutScheme euConfig (tableExchange [])
        [("app.cloud.example.com", "Healthy")]).getServiceHealthStatus
        (appGslb roundRobinStrategy) = Except.ok [("app.cloud.example.com", "Healthy")] ∧
    getGslbIngressIPs
        (reconcilerWithoutScheme euConfig (tableExchange [])
          [("app.cloud.example.com", "Healthy")])
        (appGslb roundRobinStrategy) = Except.ok ["10.1.0.1"] ∧
    strings.Contains "app.cloud.example.com" euConfig.EdgeDNSZone = true ∧
    gslbDNSEndpoint
        (reconcilerWithoutScheme euConfig (tableExchange [])
          [("app.cloud.example.com", "Healthy")])
        (appGslb roundRobinStrategy) =
      Except.error (Error.collaborator "no kind is registered for the type v1beta1.Gslb") :=
  ⟨rfl, rfl, by decide, rfl⟩

/-- C12 (amended). For every host, every peer list and every outcome of the
peer queries `getExternalTargets` returns a nil error. When the health map
and the local targets were obtained, every host passes the zone check and
the owner reference is set, `gslbDNSEndpoint` returns a record set; and an
error it returns is the error of the health status, of the local target
discovery, of the zone check or of `SetControllerReference`, never one of a
peer query. -/
theorem gslbDNSEndpoint_peer_errors_stay_inside (r : GslbReconciler) (gslb : Gslb) :
    (∀ host, (getExternalTargets r host).2 = none) ∧
    (∀ (serviceHealth : List (String × String)) (localTargets : List String)
        (owner : OwnerReference),
      r.getServiceHealthStatus gslb = Except.ok serviceHealth →
      getGslbIngressIPs r gslb = Except.ok localTargets →
      (∀ p ∈ serviceHealth, strings.Contains p.1 r.Config.EdgeDNSZone = true) →
      r.setControllerReference gslb = Except.ok owner →
      ∃ out, gslbDNSEndpoint r gslb = Except.ok out ∧
        gslbDNSEndpointLoop r gslb gslb.Strategy.DNSTtlSeconds localTargets serviceHealth [] =
          Except.ok out.Endpoints) ∧
    (∀ err, gslbDNSEndpoint r gslb = Except.error err →
      r.getServiceHealthStatus gslb = Except.error err ∨
      getGslbIngressIPs r gslb = Except.error err ∨
      (∃ serviceHealth, r.getServiceHealthStatus gslb = Except.ok serviceHealth ∧
        ∃ p ∈ serviceHealth, strings.Contains p.1 r.Config.EdgeDNSZone = false ∧
          err = Error.hostNotInZone p.1 r.Config.EdgeDNSZone) ∨
      r.setControllerReference gslb = Except.error err) := by
  refine ⟨getExternalTargets_snd r, ?_, ?_⟩
  · intro serviceHealth localTargets owner hs hl hz ho
    refine ⟨_, gslbDNSEndpoint_ok r gslb serviceHealth localTargets owner hs hl hz ho, ?_⟩
    rw [gslbDNSEndpointLoop_ok r gslb localTargets serviceHealth [] hz]
    simp
  · intro err herr
    unfold gslbDNSEndpoint at herr
    cases hs : r.getServiceHealthStatus gslb with
    | error e =>
      rw [hs] at herr
      simp only [Except.error.injEq] at herr
      left; rw [herr]
    | ok serviceHealth =>
      cases hl : getGslbIngressIPs r gslb with
      | error e =>
        rw [hs, hl] at herr
        simp only [Except.error.injEq] at herr
        right; left; rw [herr]
      | ok localTargets =>
        rw [hs, hl] at herr
        simp only at herr
        by_cases hz : ∀ p ∈ serviceHealth, strings.Contains p.1 r.Config.EdgeDNSZone = true
        · rw [gslbDNSEndpointLoop_ok r gslb localTargets serviceHealth [] hz] at herr
          cases ho : r.setControllerReference gslb with
          | error e =>
            rw [ho] at herr
            simp only [Except.error.injEq] at herr
            right; right; right; rw [herr]
          | ok owner => rw [ho] at herr; simp at herr
        · have hz2 : ∃ p ∈ serviceHealth,
              strings.Contains p.1 r.Config.EdgeDNSZone = false := by
            by_contra hcon
            apply hz
            intro p hp
            cases hc : strings.Contains p.1 r.Config.EdgeDNSZone with
            | true => rfl
            | false => exact absurd ⟨p, hp, hc⟩ hcon
          obtain ⟨q, hq, hqz, hrun⟩ :=
            gslbDNSEndpointLoop_error r gslb localTargets serviceHealth [] hz2
          rw [hrun] at herr
          simp only [Except.error.injEq] at herr
          right; right; left
          exact ⟨serviceHealth, rfl, q, hq, hqz, herr.symm⟩

/-- C12 (witness). Every peer query fails and the run still returns the
record set of the Healthy host. -/
theorem gslbDNSEndpoint_peer_errors_stay_inside_witness :
    getExternalTargets
        (reconcilerOn euConfig (tableExchange []) [("app.cloud.example.com", "Healthy")])
        "app.cloud.example.com" = ([], none) ∧
    ∃ out,
      gslbDNSEndpoint
          (reconcilerOn euConfig (tableExchange []) [("app.cloud.example.com", "Healthy")])
          (appGslb roundRobinStrategy) = Except.ok out ∧
      gslbDNSEndpointLoop
          (reconcilerOn euConfig (tableExchange []) [("app.cloud.example.com", "Healthy")])
          (appGslb roundRobinStrategy) (appGslb roundRobinStrategy).Strategy.DNSTtlSeconds
          ["10.1.0.1"] [("app.cloud.example.com", "Healthy")] [] = Except.ok out.Endpoints :=
  ⟨rfl,
    (gslbDNSEndpoint_peer_errors_stay_inside
      (reconcilerOn euConfig (tableExchange []) [("app.cloud.example.com", "Healthy")])
      (appGslb roundRobinStrategy)).2.1
      [("app.cloud.example.com", "Healthy")] ["10.1.0.1"] { Kind := "Gslb", Name := "app" }
      rfl rfl (by decide) rfl⟩

/-! ## Local Target Discovery -/

/-- The loop of `getGslbIngressIPs` when every hostname it meets resolves:
every entry adds its IP, if present, and then the addresses of its hostname,
if present. -/
theorem getGslbIngressIPsLoop_ok (r : GslbReconciler) (ingress : List LoadBalancerIngress) :
    ∀ gslbIngressIPs : List String,
      (∀ e ∈ ingress, e.Hostname.length > 0 →
        ∃ IPs, r.dig r.Config.EdgeDNSServer e.Hostname = Except.ok IPs) →
      getGslbIngressIPsLoop r ingress gslbIngressIPs =
        Except.ok (gslbIngressIPs ++ ingress.flatMap fun e =>
          (if e.IP.length > 0 then [e.IP] else []) ++
          (if e.Hostname.length > 0 then resolvedIPs r e.Hostname else [])) := by
  induction ingress with
  | nil => intro acc _; simp [getGslbIngressIPsLoop]
  | cons ip rest ih =>
    intro acc hd
    have hrest : ∀ e ∈ rest, e.Hostname.length > 0 →
        ∃ IPs, r.dig r.Config.EdgeDNSServer e.Hostname = Except.ok IPs :=
      fun e he => hd e (List.mem_cons_of_mem _ he)
    simp only [getGslbIngressIPsLoop, List.flatMap_cons]
    by_cases hh : ip.Hostname.length > 0
    · obtain ⟨IPs, hIPs⟩ := hd ip (List.mem_cons_self _ _) hh
      simp only [hh, if_true, hIPs, resolvedIPs]
      rw [ih _ hrest]
      by_cases hi : ip.IP.length > 0 <;> simp [hi, resolvedIPs]
    · simp only [hh, if_false, List.append_nil]
      rw [ih _ hrest]
      by_cases hi : ip.IP.length > 0 <;> simp [hi]

/-- C13 (counterexample). An ingress entry with the IP `10.1.0.1` and the
hostname `lb.example.com`, which resolves to `10.1.0.2`: the claim gives
`["10.1.0.1"]`, `getGslbIngressIPs` returns `["10.1.0.1", "10.1.0.2"]`; and
when the hostname of such an entry does not resolve, `getGslbIngressIPs`
returns the resolution error. -/
theorem getGslbIngressIPs_entry_with_ip_and_hostname :
    specEntryIPs
        (reconcilerWithIngress euConfig (tableExchange []) []
          [{ IP := "10.1.0.1", Hostname := "lb.example.com" }]
          (tableDig [("lb.example.com", ["10.1.0.2"])]))
        { IP := "10.1.0.1", Hostname := "lb.example.com" } = ["10.1.0.1"] ∧
    getGslbIngressIPs
        (reconcilerWithIngress euConfig (tableExchange []) []
          [{ IP := "10.1.0.1", Hostname := "lb.example.com" }]
          (tableDig [("lb.example.com", ["10.1.0.2"])]))
        (appGslb roundRobinStrategy) = Except.ok ["10.1.0.1", "10.1.0.2"] ∧
    getGslbIngressIPs
        (reconcilerWithIngress euConfig (tableExchange []) []
          [{ IP := "10.1.0.1", Hostname := "lb.example.com" }]
          (tableDig []))
        (appGslb roundRobinStrategy) = Except.error (Error.collaborator "no such host") :=
  ⟨by decide, rfl, rfl⟩

/-- C13 (amended). For every list of ingress entries for which the resolution
of every hostname present succeeds, `getGslbIngressIPs` returns the
concatenation in entry order of: the entry's IP if an IP is present,
followed by all IPs returned by resolving the entry's hostname if a hostname
is present. When no entry carries both an IP and a hostname this is the
concatenation the specification describes. -/
theorem getGslbIngressIPs_concatenates (r : GslbReconciler) (gslb : Gslb)
    (ingress : List LoadBalancerIngress)
    (hg : r.getIngress gslb.Namespace gslb.Name = Except.ok ingress)
    (hd : ∀ e ∈ ingress, e.Hostname.length > 0 →
      ∃ IPs, r.dig r.Config.EdgeDNSServer e.Hostname = Except.ok IPs) :
    getGslbIngressIPs r gslb =
      Except.ok (ingress.flatMap fun e =>
        (if e.IP.length > 0 then [e.IP] else []) ++
        (if e.Hostname.length > 0 then resolvedIPs r e.Hostname else [])) ∧
    ((∀ e ∈ ingress, ¬ (e.IP.length > 0 ∧ e.Hostname.length > 0)) →
      getGslbIngressIPs r gslb = Except.ok (ingress.flatMap (specEntryIPs r))) := by
  have h1 : getGslbIngressIPs r gslb =
      Except.ok (ingress.flatMap fun e =>
        (if e.IP.length > 0 then [e.IP] else []) ++
        (if e.Hostname.length > 0 then resolvedIPs r e.Hostname else [])) := by
    unfold getGslbIngressIPs
    rw [hg]
    simp only
    rw [getGslbIngressIPsLoop_ok r ingress [] hd, List.nil_append]
  refine ⟨h1, ?_⟩
  intro hone
  rw [h1]
  congr 1
  apply List.flatMap_congr
  intro e he
  have hne := hone e he
  unfold specEntryIPs
  by_cases hi : e.IP.length > 0
  · have hh : ¬ e.Hostname.length > 0 := fun hh => hne ⟨hi, hh⟩
    simp [hi, hh]
  · simp [hi]

/-- C13 (witness). An entry with an IP, then an entry with a hostname that
resolves to two addresses. -/
theorem getGslbIngressIPs_concatenates_witness :
    getGslbIngressIPs
        (reconcilerWithIngress euConfig (tableExchange []) []
          [{ IP := "10.1.0.1", Hostname := "" }, { IP := "", Hostname := "lb.example.com" }]
          (tableDig [("lb.example.com", ["10.1.0.2", "10.1.0.3"])]))
        (appGslb roundRobinStrategy) =
      Except.ok ([{ IP := "10.1.0.1", Hostname := "" },
          ({ IP := "", Hostname := "lb.example.com" } : LoadBalancerIngress)].flatMap
        (specEntryIPs
          (reconcilerWithIngress euConfig (tableExchange []) []
            [{ IP := "10.1.0.1", Hostname := "" }, { IP := "", Hostname := "lb.example.com" }]
            (tableDig [("lb.example.com", ["10.1.0.2", "10.1.0.3"])])))) ∧
    getGslbIngressIPs
        (reconcilerWithIngress euConfig (tableExchange []) []
          [{ IP := "10.1.0.1", Hostname := "" }, { IP := "", Hostname := "lb.example.com" }]
          (tableDig [("lb.example.com", ["10.1.0.2", "10.1.0.3"])]))
        (appGslb roundRobinStrategy) = Except.ok ["10.1.0.1", "10.1.0.2", "10.1.0.3"] :=
  ⟨(getGslbIngressIPs_concatenates
      (reconcilerWithIngress euConfig (tableExchange []) []
        [{ IP := "10.1.0.1", Hostname := "" }, { IP := "", Hostname := "lb.example.com" }]
        (tableDig [("lb.example.com", ["10.1.0.2", "10.1.0.3"])]))
      (appGslb roundRobinStrategy)
      [{ IP := "10.1.0.1", Hostname := "" }, { IP := "", Hostname := "lb.example.com" }]
      rfl
      (by
        intro e he hh
        simp only [List.mem_cons, List.mem_singleton, List.not_mem_nil, or_false] at he
        rcases he with rfl | rfl
        · exact absurd hh (by decide)
        · exact ⟨["10.1.0.2", "10.1.0.3"], rfl⟩)).2 (by decide),
    rfl⟩

/-! ## The names derived from the topology -/

/-- C14. `nsServerNameExt` returns one name per configured peer geoTag, in
configuration order: the lists have the same length and the `i`-th name is
`gslb-ns-` + the dashed `DNSZone` + `-` + the `i`-th geoTag + `.` +
`EdgeDNSZone`. The dashed `DNSZone` is `DNSZone` with every dot replaced by a
dash (no dot is left, every other character is kept); `EdgeDNSZone` is
appended as it is, so every name ends in `.` + `EdgeDNSZone`. -/
theorem nsServerNameExt_names (cfg : Config) :
    (nsServerNameExt cfg).length = cfg.ExtClustersGeoTags.length ∧
    (∀ i : Nat, (nsServerNameExt cfg)[i]? =
      cfg.ExtClustersGeoTags[i]?.map fun geoTag =>
        "gslb-ns-" ++ strings.ReplaceAll cfg.DNSZone '.' '-' ++ "-" ++ geoTag ++ "." ++
          cfg.EdgeDNSZone) ∧
    (strings.ReplaceAll cfg.DNSZone '.' '-').data =
      cfg.DNSZone.data.map (fun c => if c = '.' then '-' else c) ∧
    '.' ∉ (strings.ReplaceAll cfg.DNSZone '.' '-').data ∧
    (∀ name ∈ nsServerNameExt cfg, ("." ++ cfg.EdgeDNSZone).data <:+ name.data) := by
  refine ⟨by simp [nsServerNameExt], ?_, rfl, ?_, ?_⟩
  · intro i
    simp [nsServerNameExt]
  · simp only [strings.ReplaceAll, List.mem_map, not_exists, not_and]
    intro c _
    by_cases hc : c = '.'
    · simp [hc]
    · simp [hc]
  · intro name hname
    simp only [nsServerNameExt, List.mem_map] at hname
    obtain ⟨geoTag, _, rfl⟩ := hname
    refine ⟨("gslb-ns-" ++ strings.ReplaceAll cfg.DNSZone '.' '-' ++ "-" ++ geoTag).data, ?_⟩
    simp [String.data_append]

/-- C15. `getExternalClusterHeartbeatFQDNs` returns one name per configured
peer geoTag, in configuration order: the lists have the same length and the
`i`-th name is the `Gslb` name + `-heartbeat-` + the `i`-th geoTag + `.` +
`EdgeDNSZone`; for an empty peer list the result is empty. -/
theorem getExternalClusterHeartbeatFQDNs_names (gslb : Gslb) (config : Config) :
    (getExternalClusterHeartbeatFQDNs gslb config).length = config.ExtClustersGeoTags.length ∧
    (∀ i : Nat, (getExternalClusterHeartbeatFQDNs gslb config)[i]? =
      config.ExtClustersGeoTags[i]?.map fun geoTag =>
        gslb.Name ++ "-heartbeat-" ++ geoTag ++ "." ++ config.EdgeDNSZone) ∧
    (config.ExtClustersGeoTags = [] → getExternalClusterHeartbeatFQDNs gslb config = []) := by
  refine ⟨by simp [getExternalClusterHeartbeatFQDNs], ?_, ?_⟩
  · intro i
    simp [getExternalClusterHeartbeatFQDNs]
  · intro h
    simp [getExternalClusterHeartbeatFQDNs, h]

/-! ## Resolver selection -/

/-- C16. `overrideWithFakeDNS`: with the test-mode flag set the result is
`127.0.0.1:7753` for every server, so it does not depend on the server; with
the flag not set the result is the server followed by `:53`. -/
theorem overrideWithFakeDNS_selects :
    (∀ server, overrideWithFakeDNS true server = "127.0.0.1:7753") ∧
    (∀ server₁ server₂, overrideWithFakeDNS true server₁ = overrideWithFakeDNS true server₂) ∧
    (∀ server, overrideWithFakeDNS false server = server ++ ":53") :=
  ⟨fun _ => rfl, fun _ _ => rfl, fun _ => rfl⟩

/-- C14 (witness). Cluster `eu`: the second name is built from the second
peer `za`. -/
theorem nsServerNameExt_names_witness :
    (nsServerNameExt euConfig)[1]? = some "gslb-ns-cloud-example-com-za.example.com" :=
  ((nsServerNameExt_names euConfig).2.1 1).trans (by decide)

/-- C15 (witness). Cluster `eu`, `Gslb` named `app`: the second name is built
from the second peer `za`. -/
theorem getExternalClusterHeartbeatFQDNs_names_witness :
    (getExternalClusterHeartbeatFQDNs (appGslb roundRobinStrategy) euConfig)[1]? =
      some "app-heartbeat-za.example.com" :=
  ((getExternalClusterHeartbeatFQDNs_names (appGslb roundRobinStrategy) euConfig).2.1 1).trans
    (by decide)

/-! ## A secondary without external targets -/

theorem getExternalTargetsLoop_asked_mono (r : GslbReconciler) (clusters : List String) :
    ∀ (host : String) (targets : List String) (asked : List (String × String)),
      ∀ p ∈ asked, p ∈ (getExternalTargetsLoop r clusters host targets asked).asked := by
  induction clusters with
  | nil => intro host targets asked p hp; exact hp
  | cons cluster rest ih =>
    intro host targets asked p hp
    simp only [getExternalTargetsLoop]
    split
    · exact List.mem_append.mpr (Or.inl hp)
    · exact ih _ _ _ p (List.mem_append.mpr (Or.inl hp))

/-- When a query the loop sent has failed, the loop returns no target. -/
theorem getExternalTargetsLoop_failed (r : GslbReconciler) (clusters : List String) :
    ∀ (host : String) (targets : List String) (asked : List (String × String)),
      (∀ p ∈ asked, ∃ a, r.exchange p.1 QType.A p.2 = Except.ok a) →
      (∃ p ∈ (getExternalTargetsLoop r clusters host targets asked).asked,
        ∃ err, r.exchange p.1 QType.A p.2 = Except.error err) →
      (getExternalTargetsLoop r clusters host targets asked).targets = [] := by
  induction clusters with
  | nil =>
    intro host targets asked hall hfail
    obtain ⟨p, hp, err, herr⟩ := hfail
    obtain ⟨a, ha⟩ := hall p hp
    rw [ha] at herr
    simp at herr
  | cons cluster rest ih =>
    intro host targets asked hall hfail
    simp only [getExternalTargetsLoop] at hfail ⊢
    cases hx : r.exchange ("localtargets-" ++ host ++ ".") QType.A
        (overrideWithFakeDNS r.Config.FakeDNSEnabled cluster) with
    | error e => simp
    | ok a =>
      rw [hx] at hfail
      simp only at hfail ⊢
      refine ih _ _ _ ?_ hfail
      intro p hp
      rcases List.mem_append.mp hp with h | h
      · exact hall p h
      · simp only [List.mem_singleton] at h
        subst h
        exact ⟨a, hx⟩

/-- When every query the loop sent and that succeeded came back with an
empty answer section, the loop returns no target. -/
theorem getExternalTargetsLoop_no_answer (r : GslbReconciler) (clusters : List String) :
    ∀ (host : String) (asked : List (String × String)),
      (∀ p ∈ (getExternalTargetsLoop r clusters host [] asked).asked,
        ∀ a, r.exchange p.1 QType.A p.2 = Except.ok a → a.Answer = []) →
      (getExternalTargetsLoop r clusters host [] asked).targets = [] := by
  induction clusters with
  | nil => intro host asked _; rfl
  | cons cluster rest ih =>
    intro host asked hall
    simp only [getExternalTargetsLoop] at hall ⊢
    cases hx : r.exchange ("localtargets-" ++ host ++ ".") QType.A
        (overrideWithFakeDNS r.Config.FakeDNSEnabled cluster) with
    | error e => simp
    | ok a =>
      rw [hx] at hall
      simp only at hall ⊢
      have hmem := getExternalTargetsLoop_asked_mono r rest ("localtargets-" ++ host ++ ".")
        (if (clusterTargetsOf a).length > 0 then [] ++ clusterTargetsOf a else [])
        (asked ++ [("localtargets-" ++ host ++ ".",
          overrideWithFakeDNS r.Config.FakeDNSEnabled cluster)])
        ("localtargets-" ++ host ++ ".", overrideWithFakeDNS r.Config.FakeDNSEnabled cluster)
        (by simp)
      have ha : a.Answer = [] := hall _ hmem a hx
      have hct : clusterTargetsOf a = [] := by simp [clusterTargetsOf, ha]
      rw [hct] at hall ⊢
      simp only [List.length_nil, gt_iff_lt, lt_self_iff_false, if_false] at hall ⊢
      exact ih _ _ hall

/-- C17. Under the Failover strategy on a secondary cluster: when a peer
query failed, or when the peers that answered had nothing in their answer
section, `getExternalTargets` returns no target; and when it returns no
target, the iteration for a Healthy host appends the cluster-local record
and, for a non-empty local target list, the global record whose targets are
the cluster's own local targets, which a successful run then has in its
output. Nothing but the result of `getExternalTargets` enters the decision:
no heartbeat is looked at (the strategy is not looked at either when there
is no external target, so the proof does not use the two strategy
hypotheses). -/
theorem gslbDNSEndpoint_failover_secondary_publishes_itself (r : GslbReconciler)
    (gslb : Gslb) (localTargets : List String) (host : String)
    (_hF : gslb.Strategy.Type_ = failoverStrategy)
    (_hS : gslb.Strategy.PrimaryGeoTag ≠ r.Config.ClusterGeoTag)
    (hz : strings.Contains host r.Config.EdgeDNSZone = true) :
    ((∃ p ∈ (getExternalTargetsRun r host).asked,
        ∃ err, r.exchange p.1 QType.A p.2 = Except.error err) →
      (getExternalTargets r host).1 = []) ∧
    ((∀ p ∈ (getExternalTargetsRun r host).asked,
        ∀ a, r.exchange p.1 QType.A p.2 = Except.ok a → a.Answer = []) →
      (getExternalTargets r host).1 = []) ∧
    ((getExternalTargets r host).1 = [] →
      ∀ gslbHosts : List Endpoint,
        hostIteration r gslb gslb.Strategy.DNSTtlSeconds localTargets host "Healthy" gslbHosts =
          Except.ok (gslbHosts ++
            [{ DNSName := "localtargets-" ++ host, Targets := localTargets, RecordType := "A",
               RecordTTL := gslb.Strategy.DNSTtlSeconds }] ++
            (if localTargets = [] then []
             else [{ DNSName := host, Targets := localTargets, RecordType := "A",
                     RecordTTL := gslb.Strategy.DNSTtlSeconds }]))) ∧
    ((getExternalTargets r host).1 = [] →
      ∀ (out : DNSEndpoint) (serviceHealth : List (String × String)),
        gslbDNSEndpoint r gslb = Except.ok out →
        r.getServiceHealthStatus gslb = Except.ok serviceHealth →
        getGslbIngressIPs r gslb = Except.ok localTargets →
        (host, "Healthy") ∈ serviceHealth → localTargets ≠ [] →
        ({ DNSName := host, Targets := localTargets, RecordType := "A",
           RecordTTL := gslb.Strategy.DNSTtlSeconds } : Endpoint) ∈ out.Endpoints) := by
  have key : (getExternalTargets r host).1 = [] →
      iterationRecords r gslb localTargets (host, "Healthy") =
      [{ DNSName := "localtargets-" ++ host, Targets := localTargets, RecordType := "A",
         RecordTTL := gslb.Strategy.DNSTtlSeconds }] ++
      (if localTargets = [] then []
       else [{ DNSName := host, Targets := localTargets, RecordType := "A",
               RecordTTL := gslb.Strategy.DNSTtlSeconds }]) := by
    intro hext
    simp only [iterationRecords, finalTargetsOf, hext, List.length_nil, gt_iff_lt,
      lt_self_iff_false, if_false, if_true, localTargetsRecord, globalRecord]
    cases hlt : localTargets <;> simp
  refine ⟨?_, ?_, ?_, ?_⟩
  · intro hfail
    exact getExternalTargetsLoop_failed r _ host [] [] (by simp) hfail
  · intro hall
    exact getExternalTargetsLoop_no_answer r _ host [] hall
  · intro hext gslbHosts
    rw [hostIteration_eq r gslb localTargets host "Healthy" gslbHosts hz, key hext,
      List.append_assoc]
  · intro hext out serviceHealth hrun hs hl hmem hlt
    obtain ⟨sh, lt, hs2, hl2, _, hout⟩ := gslbDNSEndpoint_ok_inv r gslb out hrun
    rw [hs] at hs2
    rw [hl] at hl2
    cases hs2
    cases hl2
    rw [hout, List.mem_flatMap]
    refine ⟨(host, "Healthy"), hmem, ?_⟩
    rw [key hext]
    simp [hlt]

/-- C17 (witness). Secondary `us` whose only peer, the primary `eu`, does not
answer: the Healthy host is published with the cluster's own target. -/
theorem gslbDNSEndpoint_failover_secondary_publishes_itself_witness :
    gslbDNSEndpoint
        (reconcilerOn usConfig (tableExchange []) [("app.cloud.example.com", "Healthy")])
        (appGslb failoverStrategy) =
      Except.ok (appEndpoint
        [aEndpoint "localtargets-app.cloud.example.com" ["10.1.0.1"],
         aEndpoint "app.cloud.example.com" ["10.1.0.1"]]) ∧
    hostIteration
        (reconcilerOn usConfig (tableExchange []) [("app.cloud.example.com", "Healthy")])
        (appGslb failoverStrategy) 30 ["10.1.0.1"] "app.cloud.example.com" "Healthy" [] =
      Except.ok ([] ++ [aEndpoint "localtargets-app.cloud.example.com" ["10.1.0.1"]] ++
        [aEndpoint "app.cloud.example.com" ["10.1.0.1"]]) :=
  ⟨rfl,
    (gslbDNSEndpoint_failover_secondary_publishes_itself
      (reconcilerOn usConfig (tableExchange []) [("app.cloud.example.com", "Healthy")])
      (appGslb failoverStrategy) ["10.1.0.1"] "app.cloud.example.com"
      rfl (by decide) rfl).2.2.1 rfl []⟩

/-! ## Heartbeats from the future -/

/-- C18. A heartbeat whose parsed timestamp lies after `now` is accepted for
every non-negative threshold: `now - ts` is negative, the duration
`now.Sub(ts)` is negative however far ahead the timestamp is (it stops at the
smallest `Duration`), and `checkAliveFromTXT` returns no error. -/
theorem checkAliveFromTXT_future_timestamp (exchange : Exchange)
    (parse : String → Except Error time.Time) (now ts : time.Time) (fqdn : String)
    (config : Config) (threshold : Int) (t : RR) (rest : List RR)
    (hx : exchange (Fqdn fqdn) QType.TXT
      (overrideWithFakeDNS config.FakeDNSEnabled config.EdgeDNSServer) = Except.ok ⟨t :: rest⟩)
    (ht : t.isTXT = true)
    (hlen : (strings.Trim (column4 t) '"').length > 0)
    (hp : parse (strings.Trim (column4 t) '"') = Except.ok ts)
    (hthr : 0 ≤ threshold)
    (hfut : now.unixNano < ts.unixNano) :
    now.unixNano - ts.unixNano < 0 ∧
    now.Sub ts < 0 ∧
    checkAliveFromTXT exchange parse now fqdn config threshold = none := by
  rw [checkAliveFromTXT_parsed exchange parse now ts fqdn config threshold t rest hx ht hlen hp]
  have hminv : time.minDuration = -9223372036854775808 := by decide
  have hmaxv : time.maxDuration = 9223372036854775807 := by decide
  have hclamp := time.Time.Sub_cases now ts
  rw [hminv, hmaxv] at hclamp
  simp only [guard_eq_none]
  generalize now.Sub ts = d at hclamp ⊢
  refine ⟨by omega, by omega, by omega⟩

/-- C18 (witness). Now 2026-11-01T12:00:00Z, heartbeat `9999-12-31T23:59:59`,
threshold zero: the difference does not fit a `Duration` and the heartbeat
is accepted. -/
theorem checkAliveFromTXT_future_timestamp_witness :
    noon.unixNano - 253402300799000000000 < time.minDuration ∧
    noon.Sub ⟨253402300799000000000⟩ < 0 ∧
    checkAliveFromTXT (heartbeatExchange "9999-12-31T23:59:59")
      (parseTable [("9999-12-31T23:59:59", 253402300799000000000)])
      noon "app-heartbeat-us.example.com" euConfig 0 = none :=
  ⟨by decide,
    (checkAliveFromTXT_future_timestamp (heartbeatExchange "9999-12-31T23:59:59")
      (parseTable [("9999-12-31T23:59:59", 253402300799000000000)])
      noon ⟨253402300799000000000⟩ "app-heartbeat-us.example.com" euConfig 0
      { text := "app-heartbeat-us.example.com.\t30\tIN\tTXT\t\"9999-12-31T23:59:59\"",
        isTXT := true } []
      rfl rfl (by decide) rfl (by decide) (by decide)).2⟩

end K8gb
